import Mathlib

/-
  Verification development for the DocuChat-AI repository.

  Shallow embedding of the document-ingestion state machine and the
  multi-vector RAG pipeline:
    - app/config.py            (Settings: limits and folders)
    - app/models/schemas.py    (ProcessingStatus and the response models)
    - app/services/document_processor.py (extraction, image pipeline, summaries)
    - app/services/rag_service.py        (build_vector_database)
    - app/api/documents.py     (upload, process, status, delete, legacy query)
    - app/api/queries.py       (status-aware query endpoint)

  External collaborators (PDF parser, vision service, summarizer, qdrant,
  uuid generator, clock, file system) are modelled as explicit parameters:
  a call that can fail is an `Except String` value, a fresh-name source is a
  `Nat → String` stream.  Python floats that the claims only compare with 0
  (processing_time, confidence_score) are modelled as `Nat`.
-/

namespace DocuChat

/-! ### Configuration (app/config.py) -/

def MAX_FILE_SIZE : Nat := 50 * 1024 * 1024

def MAX_IMAGES_PER_REQUEST : Nat := 15

def RATE_LIMIT_DELAY : Nat := 4

def UPLOAD_FOLDER : String := "storage/uploads"

def IMAGES_FOLDER : String := "storage/images"

/-! ### Data model (app/models/schemas.py) -/

inductive ProcessingStatus
  | pending
  | processing
  | completed
  | failed
deriving DecidableEq, Repr

structure ElementsCount where
  texts : Nat
  tables : Nat
  images : Nat
deriving DecidableEq, Repr

structure DocumentUploadResponse where
  document_id : String
  filename : String
  file_size : Nat
  upload_time : Nat
  status : ProcessingStatus
deriving DecidableEq, Repr

structure ProcessingResponse where
  status : ProcessingStatus
  message : String
  document_id : String
deriving DecidableEq, Repr

structure DocumentStatus where
  document_id : String
  status : ProcessingStatus
  filename : String
  upload_time : Nat
  processing_time : Option Nat
  elements_count : Option ElementsCount
deriving DecidableEq, Repr

structure SourceInfo where
  content_type : String
  content : String
  metadata : List (String × String)
deriving DecidableEq, Repr

structure ImageInfo where
  image_id : String
  filename : String
  path : String
  description : String
  image_base64 : Option String
deriving DecidableEq, Repr

structure StatusInfo where
  status : String
  message : String
  estimated_wait_time : Option String
  action_required : Option String
deriving DecidableEq, Repr

structure QueryResponse where
  answer : String
  document_id : String
  processing_time : Nat
  sources : List SourceInfo
  related_images : List ImageInfo
  confidence_score : Option Nat
  status_info : Option StatusInfo
deriving DecidableEq, Repr

structure QueryRequest where
  document_id : String
  question : String
  max_results : Option Nat
deriving DecidableEq, Repr

/-- Errors surfaced by the FastAPI layer: HTTPException, DocumentNotFoundError,
ProcessingError and InvalidFileError (app/core/exceptions.py). -/
inductive ApiError
  | http (status_code : Nat) (detail : String)
  | documentNotFound (document_id : String)
  | processingError (message : String) (document_id : String)
  | invalidFile (message : String)
deriving DecidableEq, Repr

/-- Python `str.endswith(suffix)`, as a computation on the character list
(Lean's own `String.endsWith` is irreducible for the kernel). -/
def pyEndsWith (s suffix : String) : Bool :=
  suffix.data.isSuffixOf s.data

/-! ### Association-list helpers (Python dict model) -/

def getAssoc {α : Type} (id : String) : List (String × α) → Option α
  | [] => none
  | (k, v) :: rest => if k = id then some v else getAssoc id rest

def updAssoc {α : Type} (id : String) (v : α) : List (String × α) → List (String × α)
  | [] => [(id, v)]
  | (k, w) :: rest => if k = id then (id, v) :: rest else (k, w) :: updAssoc id v rest

def delAssoc {α : Type} (id : String) : List (String × α) → List (String × α)
  | [] => []
  | (k, w) :: rest => if k = id then delAssoc id rest else (k, w) :: delAssoc id rest

/-! ### Document processor (app/services/document_processor.py) -/

/-- Result of `extract_pdf_content`: the chunks partitioned into table elements,
composite text elements, and the base64 images pulled out of the chunks. -/
structure ExtractResult where
  texts : List String
  tables : List String
  images : List String
deriving DecidableEq, Repr

/-- Per-image metadata record as appended by `process_and_save_images`. -/
structure ImageMeta where
  filename : Option String
  path : Option String
  description : String
  original_index : Nat
  unique_id : Option String
deriving DecidableEq, Repr

/-- `_describe_image`: the external vision call is `vision`; its failure is
caught and turned into an error-placeholder string, and a falsy (empty)
response text becomes the no-content message. -/
def describe_image (vision : String → Except String String) (image_b64 : String) : String :=
  match vision image_b64 with
  | Except.ok t => if t = "" then "No content detected in image" else t
  | Except.error e => "Error processing image: " ++ e

def filename_for (i : Nat) (uid : String) : String :=
  "image_" ++ toString (i + 1) ++ "_" ++ uid ++ ".png"

def path_for (docId : String) (fn : String) : String :=
  IMAGES_FOLDER ++ "/" ++ docId ++ "/" ++ fn

/-- The sleep issued after a successfully saved image: 60 seconds when
`(i+1) % MAX_IMAGES_PER_REQUEST == 0`, else `RATE_LIMIT_DELAY` seconds. -/
def delayFor (i : Nat) : Nat :=
  if (i + 1) % MAX_IMAGES_PER_REQUEST = 0 then 60 else RATE_LIMIT_DELAY

/-- The three lists produced by `process_and_save_images`:
`self.image_descriptions`, `self.image_metadata`, and the sequence of sleeps
(in seconds) it performed. -/
structure ImagesResult where
  image_descriptions : List String
  image_metadata : List ImageMeta
  delays : List Nat
deriving DecidableEq, Repr

/-- Loop body of `process_and_save_images`, starting at index `i`.
`save i img` models uuid generation plus base64-decode plus the file write;
on its failure the `except` branch appends a placeholder to BOTH lists even
though the description was already appended, and performs no sleep. -/
def processImagesFrom (docId : String) (vision : String → Except String String)
    (save : Nat → String → Except String String) : Nat → List String → ImagesResult
  | _, [] => ⟨[], [], []⟩
  | i, img :: rest =>
    let description := describe_image vision img
    let tail := processImagesFrom docId vision save (i + 1) rest
    match save i img with
    | Except.error e =>
      let errDesc := "Error processing image: " ++ e
      ⟨description :: errDesc :: tail.image_descriptions,
       ImageMeta.mk none none errDesc i none :: tail.image_metadata,
       tail.delays⟩
    | Except.ok uid =>
      let fn := filename_for i uid
      ⟨description :: tail.image_descriptions,
       ImageMeta.mk (some fn) (some (path_for docId fn)) description i (some uid)
         :: tail.image_metadata,
       delayFor i :: tail.delays⟩

def process_and_save_images (docId : String) (vision : String → Except String String)
    (save : Nat → String → Except String String) (images : List String) : ImagesResult :=
  processImagesFrom docId vision save 0 images

/-- `create_summaries`: the Groq batch call either fails as a whole (an
exception aborts `process_document`) or returns one summary per input element,
in input order. -/
def create_summaries (summarize : Except String (String → String))
    (texts tables : List String) : Except String (List String × List String) :=
  match summarize with
  | Except.error e => Except.error e
  | Except.ok f => Except.ok (texts.map f, tables.map f)

/-! ### RAG service (app/services/rag_service.py) -/

/-- A vector inserted into the qdrant collection: the searchable text
(`page_content`), the retrieval key stored under `id_key = doc_id` in the
metadata, and the `content_type` tag. -/
structure VecEntry where
  page_content : String
  doc_id : String
  content_type : String
deriving DecidableEq, Repr

/-- Raw content stored in the docstore side table. -/
inductive RawContent
  | text (content : String)
  | table (html : String)
  | image (filename : Option String) (path : Option String) (description : String)
      (image_index : Nat) (unique_id : Option String)
deriving DecidableEq, Repr

/-- The per-document multi-vector index: the qdrant vectors plus the
`InMemoryStore` docstore keyed by the same retrieval keys. -/
structure RagIndex where
  vectors : List VecEntry
  docstore : List (String × RawContent)
deriving DecidableEq, Repr

/-- Image part of `build_vector_database`: iterates over
`image_descriptions` with index `i`, reads `img_ids[i]` (an IndexError when
the descriptions outnumber the images aborts the build), takes the metadata
record when `i < len(image_metadata)` and otherwise fabricates a fresh
filename/path/uid, then inserts the vector and the docstore entry under the
same key. -/
def imageLoop (img_ids : List String) (meta : List ImageMeta) (fresh : Nat → String)
    (docId : String) : Nat → List String → Except String (List VecEntry × List (String × RawContent))
  | _, [] => Except.ok ([], [])
  | i, desc :: rest =>
    match img_ids.get? i with
    | none => Except.error "list index out of range"
    | some key =>
      let m : Option String × Option String × Option String :=
        match meta.get? i with
        | some mi => (mi.filename, mi.path, mi.unique_id)
        | none =>
          let uid := fresh i
          let fn := filename_for i uid
          (some fn, some (path_for docId fn), some uid)
      match imageLoop img_ids meta fresh docId (i + 1) rest with
      | Except.error e => Except.error e
      | Except.ok (vs, ds) =>
        Except.ok (VecEntry.mk desc key "image" :: vs,
                   (key, RawContent.image m.1 m.2.1 desc i m.2.2) :: ds)

/-- `build_vector_database`.  `keys` supplies the `uuid.uuid4()` retrieval
keys, `fresh` the fallback unique ids.  Faithful points: the summary-document
list indexes `doc_ids[i]` and therefore raises IndexError when summaries
outnumber their units; a branch is skipped entirely when its summary list is
empty; the image branch runs when `image_descriptions` is nonempty. -/
def build_vector_database (keys fresh : Nat → String) (docId : String)
    (texts tables images : List String)
    (text_summaries table_summaries image_descriptions : List String)
    (image_metadata : List ImageMeta) : Except String RagIndex :=
  if texts.length < text_summaries.length then Except.error "list index out of range"
  else if tables.length < table_summaries.length then Except.error "list index out of range"
  else
    let textIds := (List.range texts.length).map keys
    let tableIds := (List.range tables.length).map (fun i => keys (texts.length + i))
    let imgIds := (List.range images.length).map
      (fun i => keys (texts.length + tables.length + i))
    let textVecs := (text_summaries.zip textIds).map
      (fun p => VecEntry.mk p.1 p.2 "text")
    let textDocs := if text_summaries.isEmpty then []
      else (textIds.zip texts).map (fun p => (p.1, RawContent.text p.2))
    let tableVecs := (table_summaries.zip tableIds).map
      (fun p => VecEntry.mk p.1 p.2 "table")
    let tableDocs := if table_summaries.isEmpty then []
      else (tableIds.zip tables).map (fun p => (p.1, RawContent.table p.2))
    match imageLoop imgIds image_metadata fresh docId 0 image_descriptions with
    | Except.error e => Except.error e
    | Except.ok (imgVecs, imgDocs) =>
      Except.ok ⟨textVecs ++ tableVecs ++ imgVecs, textDocs ++ tableDocs ++ imgDocs⟩

/-! ### Ingestion unit of work -/

/-- The external world an ingestion run interacts with. -/
structure IngestWorld where
  extraction : Except String ExtractResult
  vision : String → Except String String
  save : Nat → String → Except String String
  summarize : Except String (String → String)
  keys : Nat → String
  fresh : Nat → String
  vectorstoreOk : Bool

/-- Everything `DocumentProcessor.process_document` leaves on the processor. -/
structure ProcResult where
  elements_count : ElementsCount
  texts : List String
  tables : List String
  images : List String
  text_summaries : List String
  table_summaries : List String
  image_descriptions : List String
  image_metadata : List ImageMeta
  delays : List Nat
deriving DecidableEq, Repr

/-- `DocumentProcessor.process_document`: extract, process images (never
raises), create summaries; any exception is re-raised as ProcessingError. -/
def processor_process_document (w : IngestWorld) (docId : String) :
    Except String ProcResult :=
  match w.extraction with
  | Except.error e => Except.error ("Processing failed: " ++ e)
  | Except.ok ex =>
    let ir := process_and_save_images docId w.vision w.save ex.images
    match w.summarize with
    | Except.error e => Except.error ("Processing failed: " ++ e)
    | Except.ok f =>
      Except.ok
        { elements_count := ⟨ex.texts.length, ex.tables.length, ex.images.length⟩
          texts := ex.texts
          tables := ex.tables
          images := ex.images
          text_summaries := ex.texts.map f
          table_summaries := ex.tables.map f
          image_descriptions := ir.image_descriptions
          image_metadata := ir.image_metadata
          delays := ir.delays }

/-- The whole ingestion unit of work run by `process_document_background`
after the status write: processor pipeline, then `RAGService.__init__`
(vector-store setup), then `build_vector_database`. -/
def ingestResult (w : IngestWorld) (docId : String) :
    Except String (ProcResult × RagIndex) :=
  match processor_process_document w docId with
  | Except.error e => Except.error e
  | Except.ok pr =>
    if w.vectorstoreOk = false then Except.error "Vector store setup failed"
    else
      match build_vector_database w.keys w.fresh docId pr.texts pr.tables pr.images
          pr.text_summaries pr.table_summaries pr.image_descriptions pr.image_metadata with
      | Except.error e => Except.error ("Vector database build failed: " ++ e)
      | Except.ok idx => Except.ok (pr, idx)

/-! ### Shared store and API endpoints (app/core/shared_store.py, app/api) -/

/-- Per-document registry record (`document_store[document_id]`). -/
structure DocInfo where
  filename : String
  file_path : String
  file_size : Nat
  upload_time : Nat
  status : ProcessingStatus
  processing_time : Option Nat
  elements_count : Option ElementsCount
  error_message : Option String
deriving DecidableEq, Repr

/-- Process-wide mutable state: the two shared dicts, the queue of scheduled
but not-yet-run background tasks, and a log of executed ingestion runs. -/
structure ServerState where
  document_store : List (String × DocInfo)
  rag_services : List (String × RagIndex)
  scheduled : List String
  runs : List String
deriving Repr

def initState : ServerState := ⟨[], [], [], []⟩

/-- `upload_document`: rejects non-.pdf filenames and oversized files with
InvalidFileError; a failing file write is HTTPException 500; otherwise
registers the document as PENDING. -/
def upload_document (s : ServerState) (filename : String) (size : Nat)
    (document_id : String) (saveOk : Bool) (now : Nat) :
    Except ApiError (ServerState × DocumentUploadResponse) :=
  if pyEndsWith filename ".pdf" = false then
    Except.error (ApiError.invalidFile "Only PDF files are allowed")
  else if MAX_FILE_SIZE < size then
    Except.error (ApiError.invalidFile
      ("File too large. Max size: " ++ toString MAX_FILE_SIZE ++ " bytes"))
  else if saveOk = false then
    Except.error (ApiError.http 500 "Upload failed")
  else
    let d : DocInfo :=
      ⟨filename, UPLOAD_FOLDER ++ "/" ++ document_id ++ "_" ++ filename, size, now,
       ProcessingStatus.pending, none, none, none⟩
    Except.ok ({ s with document_store := updAssoc document_id d s.document_store },
      ⟨document_id, filename, size, now, ProcessingStatus.pending⟩)

def msg_already_processing : String :=
  "Document is already being processed. You\x27ll be notified when it\x27s ready."

def msg_already_completed : String :=
  "Document has already been processed and is ready for queries."

def msg_processing_started : String :=
  "Document processing has started. This usually takes 1-2 minutes. You can check the status or wait for completion notification."

/-- `process_document`: 404 on unknown id; a no-op returning the current
state when already PROCESSING or COMPLETED; otherwise schedules the
background task and sets the status to PROCESSING. -/
def process_document (s : ServerState) (document_id : String) :
    Except ApiError (ServerState × ProcessingResponse) :=
  match getAssoc document_id s.document_store with
  | none => Except.error (ApiError.http 404 "Document not found")
  | some d =>
    if d.status = ProcessingStatus.processing then
      Except.ok (s, ⟨ProcessingStatus.processing, msg_already_processing, document_id⟩)
    else if d.status = ProcessingStatus.completed then
      Except.ok (s, ⟨ProcessingStatus.completed, msg_already_completed, document_id⟩)
    else
      Except.ok ({ s with
          scheduled := s.scheduled ++ [document_id],
          document_store :=
            (updAssoc document_id
              ({ d with status := ProcessingStatus.processing }) s.document_store) },
        ⟨ProcessingStatus.processing, msg_processing_started, document_id⟩)

/-- `process_document_background`: looks the document up (a deleted id makes
both the body and the handler throw KeyError, leaving the state unchanged),
runs the ingestion unit of work, then either records FAILED with the error
message or registers the RAG service and records COMPLETED with elapsed time
and unit counts. -/
def process_document_background (w : IngestWorld) (s : ServerState)
    (document_id : String) (elapsed : Nat) : ServerState :=
  match getAssoc document_id s.document_store with
  | none => s
  | some d =>
    match ingestResult w document_id with
    | Except.error e =>
      { s with document_store :=
          (updAssoc document_id
            ({ d with status := ProcessingStatus.failed, error_message := some e })
            s.document_store) }
    | Except.ok (pr, idx) =>
      { s with
        document_store :=
          (updAssoc document_id
            ({ d with status := ProcessingStatus.completed,
                      processing_time := some elapsed,
                      elements_count := some pr.elements_count })
            s.document_store),
        rag_services := updAssoc document_id idx s.rag_services }

/-- A scheduled background task actually executing (BackgroundTasks only run
what was added to them). -/
def run_background (w : IngestWorld) (s : ServerState) (document_id : String)
    (elapsed : Nat) : ServerState :=
  if document_id ∈ s.scheduled then
    process_document_background w
      { s with scheduled := s.scheduled.erase document_id,
               runs := s.runs ++ [document_id] }
      document_id elapsed
  else s

/-- `get_document_status`. -/
def get_document_status (s : ServerState) (document_id : String) :
    Except ApiError DocumentStatus :=
  match getAssoc document_id s.document_store with
  | none => Except.error (ApiError.http 404 "Document not found")
  | some d =>
    Except.ok ⟨document_id, d.status, d.filename, d.upload_time,
      d.processing_time, d.elements_count⟩

/-- `delete_document`: file-system cleanup happens before the dict deletes,
so a file-system failure leaves the registry untouched (HTTPException 500). -/
def delete_document (s : ServerState) (document_id : String) (fsOk : Bool) :
    Except ApiError (ServerState × String) :=
  match getAssoc document_id s.document_store with
  | none => Except.error (ApiError.http 404 "Document not found")
  | some _ =>
    if fsOk = false then Except.error (ApiError.http 500 "Failed to delete document")
    else
      Except.ok ({ s with
          document_store := delAssoc document_id s.document_store,
          rag_services := delAssoc document_id s.rag_services },
        "Document deleted successfully")

def pendingAnswer : String :=
  "📋 Your document is currently queued for processing. Please wait a moment and try again."

def processingAnswer : String :=
  "⚡ Your document is currently being processed. This usually takes 1-2 minutes depending on document complexity. Please try your query again in a moment."

def failedAnswer : String :=
  "❌ Unfortunately, there was an error processing your document. Please try uploading the document again or contact support if the issue persists."

def errorAnswer : String :=
  "🔧 There was a technical issue processing your query. Please try again or contact support if the problem continues."

/-- Python `request.max_results or 5`: both `None` and `0` are falsy. -/
def maxResultsOr5 (v : Option Nat) : Nat :=
  match v with
  | none => 5
  | some n => if n = 0 then 5 else n

/-- `queries.py: query_document` (POST /query).  `ragQuery` models
`RAGService.query` on the stored index (retrieval + generation), which may
throw. -/
def queries_query_document (s : ServerState) (request : QueryRequest)
    (ragQuery : RagIndex → String → Nat → Except String QueryResponse) :
    Except ApiError QueryResponse :=
  match getAssoc request.document_id s.document_store with
  | none => Except.error (ApiError.documentNotFound request.document_id)
  | some d =>
    match d.status with
    | ProcessingStatus.pending =>
      Except.ok ⟨pendingAnswer, request.document_id, 0, [], [], some 0,
        some ⟨"pending", "Document is queued for processing", some "1-2 minutes", none⟩⟩
    | ProcessingStatus.processing =>
      Except.ok ⟨processingAnswer, request.document_id, 0, [], [], some 0,
        some ⟨"processing", "Document is being processed", some "30-120 seconds", none⟩⟩
    | ProcessingStatus.failed =>
      Except.ok ⟨failedAnswer, request.document_id, 0, [], [], some 0,
        some ⟨"failed", "Document processing failed", none,
          some "Re-upload document or contact support"⟩⟩
    | ProcessingStatus.completed =>
      match getAssoc request.document_id s.rag_services with
      | none => Except.error (ApiError.processingError "RAG service not available"
          request.document_id)
      | some idx =>
        match ragQuery idx request.question (maxResultsOr5 request.max_results) with
        | Except.ok r =>
          Except.ok { r with status_info :=
            (some ⟨"completed", "Query completed successfully", none, none⟩) }
        | Except.error e =>
          Except.ok ⟨errorAnswer, request.document_id, 0, [], [], some 0,
            some ⟨"error", "Query processing error: " ++ e, none,
              some "Try again or contact support"⟩⟩

/-- `documents.py: query_document` (POST /query/{document_id}, the route that
shadows the alias in queries.py): 400 before COMPLETED, 500 when the RAG
service is missing or its query throws. -/
def documents_query_document (s : ServerState) (document_id : String)
    (request : QueryRequest)
    (ragQuery : RagIndex → String → Nat → Except String QueryResponse) :
    Except ApiError QueryResponse :=
  match getAssoc document_id s.document_store with
  | none => Except.error (ApiError.http 404 "Document not found")
  | some d =>
    if d.status = ProcessingStatus.completed then
      match getAssoc document_id s.rag_services with
      | none => Except.error (ApiError.http 500 "RAG service not found for this document")
      | some idx =>
        match ragQuery idx request.question (request.max_results.getD 5) with
        | Except.ok r => Except.ok r
        | Except.error e => Except.error (ApiError.http 500 ("Query failed: " ++ e))
    else Except.error (ApiError.http 400 "Document is not processed yet")

/-! ### Operation sequences and reachability -/

/-- One externally triggered operation against the server. -/
inductive Op
  | upload (filename : String) (size : Nat) (newId : String) (saveOk : Bool) (now : Nat)
  | process (id : String)
  | runBg (w : IngestWorld) (id : String) (elapsed : Nat)
  | statusQuery (id : String)
  | query (request : QueryRequest)
  | delete (id : String) (fsOk : Bool)

/-- State transition of one operation (endpoints that fail leave the state
unchanged; status and query endpoints never mutate state). -/
def applyOp (s : ServerState) : Op → ServerState
  | Op.upload fn size id saveOk now =>
    match upload_document s fn size id saveOk now with
    | Except.ok (s', _) => s'
    | Except.error _ => s
  | Op.process id =>
    match process_document s id with
    | Except.ok (s', _) => s'
    | Except.error _ => s
  | Op.runBg w id elapsed => run_background w s id elapsed
  | Op.statusQuery _ => s
  | Op.query _ => s
  | Op.delete id fsOk =>
    match delete_document s id fsOk with
    | Except.ok (s', _) => s'
    | Except.error _ => s

/-- Side condition of an operation: uploads use a fresh uuid4 id. -/
def opFresh (s : ServerState) : Op → Prop
  | Op.upload _ _ id _ _ => getAssoc id s.document_store = none ∧ id ∉ s.scheduled
  | _ => True

/-- States reachable from the empty server by operation sequences. -/
inductive Reachable : ServerState → Prop
  | init : Reachable initState
  | step (s : ServerState) (op : Op) (h : Reachable s) (hfresh : opFresh s op) :
      Reachable (applyOp s op)

/-! ### Association-list lemmas -/

theorem getAssoc_updAssoc {α : Type} (id id' : String) (v : α) (l : List (String × α)) :
    getAssoc id (updAssoc id' v l) = if id' = id then some v else getAssoc id l := by
  induction l with
  | nil => by_cases h : id' = id <;> simp [updAssoc, getAssoc, h]
  | cons p rest ih =>
    obtain ⟨k, w⟩ := p
    by_cases h1 : k = id'
    · subst h1
      by_cases h2 : k = id <;> simp [updAssoc, getAssoc, h2]
    · by_cases h2 : k = id
      · subst h2
        have hne : ¬ id' = k := fun h => h1 h.symm
        simp [updAssoc, getAssoc, h1, hne]
      · simp [updAssoc, getAssoc, h1, h2, ih]

theorem getAssoc_updAssoc_self {α : Type} (id : String) (v : α) (l : List (String × α)) :
    getAssoc id (updAssoc id v l) = some v := by
  simp [getAssoc_updAssoc]

theorem getAssoc_updAssoc_ne {α : Type} {id id' : String} (h : id' ≠ id) (v : α)
    (l : List (String × α)) :
    getAssoc id (updAssoc id' v l) = getAssoc id l := by
  simp [getAssoc_updAssoc, h]

theorem getAssoc_delAssoc {α : Type} (id id' : String) (l : List (String × α)) :
    getAssoc id (delAssoc id' l) = if id' = id then none else getAssoc id l := by
  induction l with
  | nil => by_cases h : id' = id <;> simp [delAssoc, getAssoc, h]
  | cons p rest ih =>
    obtain ⟨k, w⟩ := p
    by_cases h1 : k = id'
    · subst h1
      by_cases h2 : k = id
      · subst h2
        simp [delAssoc, getAssoc, ih]
      · simp [delAssoc, getAssoc, h2, ih]
    · by_cases h2 : k = id
      · subst h2
        have hne : ¬ id' = k := fun h => h1 h.symm
        simp [delAssoc, getAssoc, h1, hne]
      · simp [delAssoc, getAssoc, h1, h2, ih]

/-! ### Image-pipeline lemmas -/

theorem processImagesFrom_metadata_length (docId : String)
    (vision : String → Except String String) (save : Nat → String → Except String String) :
    ∀ (imgs : List String) (i : Nat),
      (processImagesFrom docId vision save i imgs).image_metadata.length = imgs.length := by
  intro imgs
  induction imgs with
  | nil => intro i; simp [processImagesFrom]
  | cons img rest ih =>
    intro i
    simp only [processImagesFrom]
    cases h : save i img <;> simp [h, ih]

theorem processImagesFrom_desc_ge (docId : String)
    (vision : String → Except String String) (save : Nat → String → Except String String) :
    ∀ (imgs : List String) (i : Nat),
      imgs.length ≤ (processImagesFrom docId vision save i imgs).image_descriptions.length := by
  intro imgs
  induction imgs with
  | nil => intro i; simp [processImagesFrom]
  | cons img rest ih =>
    intro i
    simp only [processImagesFrom]
    cases h : save i img
    · simp only [List.length_cons]
      have := ih (i + 1)
      omega
    · simp only [List.length_cons]
      have := ih (i + 1)
      omega

/-- When every base64-decode/file-write succeeds, the recorded descriptions
are exactly the per-image external descriptions, in input order. -/
theorem processImagesFrom_desc_save_ok (docId : String)
    (vision : String → Except String String) (save : Nat → String → Except String String)
    (hsave : ∀ j img, ∃ u, save j img = Except.ok u) :
    ∀ (imgs : List String) (i : Nat),
      (processImagesFrom docId vision save i imgs).image_descriptions
        = imgs.map (describe_image vision) := by
  intro imgs
  induction imgs with
  | nil => intro i; simp [processImagesFrom]
  | cons img rest ih =>
    intro i
    obtain ⟨u, hu⟩ := hsave i img
    simp [processImagesFrom, hu, ih]

/-- When every save succeeds, the delay emitted after image `k` (at loop
offset `i`) is `delayFor (i + k)`. -/
theorem processImagesFrom_delays_save_ok (docId : String)
    (vision : String → Except String String) (save : Nat → String → Except String String)
    (hsave : ∀ j img, ∃ u, save j img = Except.ok u) :
    ∀ (imgs : List String) (i : Nat),
      (processImagesFrom docId vision save i imgs).delays
        = (List.range imgs.length).map (fun k => delayFor (i + k)) := by
  intro imgs
  induction imgs with
  | nil => intro i; simp [processImagesFrom]
  | cons img rest ih =>
    intro i
    obtain ⟨u, hu⟩ := hsave i img
    simp only [processImagesFrom, hu, List.length_cons, List.range_succ_eq_map,
      List.map_cons, List.map_map, ih (i + 1)]
    congr 1
    apply List.map_congr_left
    intro k _
    simp only [Function.comp_apply]
    congr 1
    omega

/-! ### Index-build lemmas -/

theorem imageLoop_ok_lengths (img_ids : List String) (meta : List ImageMeta)
    (fresh : Nat → String) (docId : String) :
    ∀ (descs : List String) (i : Nat) (vs : List VecEntry)
      (ds : List (String × RawContent)),
      imageLoop img_ids meta fresh docId i descs = Except.ok (vs, ds) →
      vs.length = descs.length ∧ ds.length = descs.length ∧
        (descs ≠ [] → i + descs.length ≤ img_ids.length) := by
  intro descs
  induction descs with
  | nil =>
    intro i vs ds h
    simp only [imageLoop] at h
    cases h
    simp
  | cons desc rest ih =>
    intro i vs ds h
    simp only [imageLoop] at h
    cases hk : img_ids.get? i with
    | none => rw [hk] at h; cases h
    | some key =>
      rw [hk] at h
      cases hrec : imageLoop img_ids meta fresh docId (i + 1) rest with
      | error e => rw [hrec] at h; cases h
      | ok p =>
        obtain ⟨vs', ds'⟩ := p
        rw [hrec] at h
        cases h
        obtain ⟨h1, h2, h3⟩ := ih (i + 1) vs' ds' hrec
        obtain ⟨hi, -⟩ := List.get?_eq_some.mp hk
        refine ⟨by simp [h1], by simp [h2], ?_⟩
        intro _
        rcases List.eq_nil_or_concat rest with hr | hr
        · subst hr; simp; omega
        · have hne : rest ≠ [] := by
            obtain ⟨l, a, rfl⟩ := hr
            simp
          have := h3 hne
          simp only [List.length_cons]
          omega

theorem imageLoop_ne_error (img_ids : List String) (meta : List ImageMeta)
    (fresh : Nat → String) (docId : String) :
    ∀ (descs : List String) (i : Nat), i + descs.length ≤ img_ids.length →
      ∀ e, imageLoop img_ids meta fresh docId i descs ≠ Except.error e := by
  intro descs
  induction descs with
  | nil =>
    intro i _ e h
    simp only [imageLoop] at h
    exact Except.noConfusion h
  | cons desc rest ih =>
    intro i hlen e h
    have hi : i < img_ids.length := by
      simp only [List.length_cons] at hlen
      omega
    have hk : img_ids.get? i = some (img_ids.get ⟨i, hi⟩) := List.get?_eq_get hi
    have hlen' : (i + 1) + rest.length ≤ img_ids.length := by
      simp only [List.length_cons] at hlen
      omega
    simp only [imageLoop, hk] at h
    cases hrec : imageLoop img_ids meta fresh docId (i + 1) rest with
    | error e' => exact ih (i + 1) hlen' e' hrec
    | ok p =>
      obtain ⟨vs', ds'⟩ := p
      rw [hrec] at h
      simp at h

theorem imageLoop_paired (img_ids : List String) (meta : List ImageMeta)
    (fresh : Nat → String) (docId : String) :
    ∀ (descs : List String) (i : Nat) (vs : List VecEntry)
      (ds : List (String × RawContent)),
      imageLoop img_ids meta fresh docId i descs = Except.ok (vs, ds) →
      ∀ v ∈ vs, ∃ raw, (v.doc_id, raw) ∈ ds := by
  intro descs
  induction descs with
  | nil =>
    intro i vs ds h
    simp only [imageLoop] at h
    cases h
    simp
  | cons desc rest ih =>
    intro i vs ds h
    simp only [imageLoop] at h
    cases hk : img_ids.get? i with
    | none => rw [hk] at h; cases h
    | some key =>
      rw [hk] at h
      cases hrec : imageLoop img_ids meta fresh docId (i + 1) rest with
      | error e => rw [hrec] at h; cases h
      | ok p =>
        obtain ⟨vs', ds'⟩ := p
        rw [hrec] at h
        cases h
        intro v hv
        rcases List.mem_cons.mp hv with h1 | h1
        · subst h1
          exact ⟨_, List.mem_cons_self _ _⟩
        · obtain ⟨raw, hraw⟩ := ih (i + 1) vs' ds' hrec v h1
          exact ⟨raw, List.mem_cons_of_mem _ hraw⟩

theorem mem_zip_left_exists {α β : Type} :
    ∀ (l₁ : List α) (l₂ : List β) (a : α), a ∈ l₁ → l₁.length ≤ l₂.length →
      ∃ b, (a, b) ∈ l₁.zip l₂ := by
  intro l₁
  induction l₁ with
  | nil => intro l₂ a ha; cases ha
  | cons x rest ih =>
    intro l₂ a ha hlen
    cases l₂ with
    | nil => simp at hlen
    | cons y ys =>
      have hlen' : rest.length ≤ ys.length := by
        simp only [List.length_cons] at hlen
        omega
      rcases List.mem_cons.mp ha with h | h
      · subst h
        exact ⟨y, List.mem_cons_self _ _⟩
      · obtain ⟨b, hb⟩ := ih ys a h hlen'
        exact ⟨b, List.mem_cons_of_mem _ hb⟩

/-- An index produced by a completed (non-aborted) `build_vector_database`
pairs every vector with a docstore entry under the same retrieval key. -/
def Paired (idx : RagIndex) : Prop :=
  ∀ v ∈ idx.vectors, ∃ raw, (v.doc_id, raw) ∈ idx.docstore

theorem build_vector_database_paired (keys fresh : Nat → String) (docId : String)
    (texts tables images : List String)
    (text_summaries table_summaries image_descriptions : List String)
    (image_metadata : List ImageMeta) (idx : RagIndex)
    (h : build_vector_database keys fresh docId texts tables images
        text_summaries table_summaries image_descriptions image_metadata
        = Except.ok idx) :
    Paired idx := by
  unfold build_vector_database at h
  by_cases h1 : texts.length < text_summaries.length
  · simp [h1] at h
  by_cases h2 : tables.length < table_summaries.length
  · simp [h1, h2] at h
  simp only [h1, h2, if_false] at h
  cases hloop : imageLoop
      ((List.range images.length).map (fun i => keys (texts.length + tables.length + i)))
      image_metadata fresh docId 0 image_descriptions with
  | error e => rw [hloop] at h; cases h
  | ok p =>
    obtain ⟨imgVecs, imgDocs⟩ := p
    rw [hloop] at h
    cases h
    intro v hv
    simp only [List.mem_append] at hv
    rcases hv with (hv | hv) | hv
    · -- text vector
      obtain ⟨⟨summ, key⟩, hmem, hveq⟩ := List.mem_map.mp hv
      have hkey : key ∈ (List.range texts.length).map keys :=
        (List.of_mem_zip hmem).2
      have hts : text_summaries ≠ [] := by
        intro hnil
        rw [hnil] at hmem
        simp at hmem
      have hlen : ((List.range texts.length).map keys).length ≤ texts.length := by simp
      obtain ⟨t, ht⟩ := mem_zip_left_exists _ _ _ hkey hlen
      refine ⟨RawContent.text t, ?_⟩
      subst hveq
      simp only [List.mem_append]
      left; left
      simp only [List.isEmpty_iff, hts, if_false]
      exact List.mem_map.mpr ⟨(key, t), ht, rfl⟩
    · -- table vector
      obtain ⟨⟨summ, key⟩, hmem, hveq⟩ := List.mem_map.mp hv
      have hkey : key ∈ (List.range tables.length).map (fun i => keys (texts.length + i)) :=
        (List.of_mem_zip hmem).2
      have hts : table_summaries ≠ [] := by
        intro hnil
        rw [hnil] at hmem
        simp at hmem
      have hlen : ((List.range tables.length).map (fun i => keys (texts.length + i))).length
          ≤ tables.length := by simp
      obtain ⟨t, ht⟩ := mem_zip_left_exists _ _ _ hkey hlen
      refine ⟨RawContent.table t, ?_⟩
      subst hveq
      simp only [List.mem_append]
      left; right
      simp only [List.isEmpty_iff, hts, if_false]
      exact List.mem_map.mpr ⟨(key, t), ht, rfl⟩
    · -- image vector
      obtain ⟨raw, hraw⟩ := imageLoop_paired _ _ _ _ _ _ _ _ hloop v hv
      exact ⟨raw, by simp only [List.mem_append]; right; exact hraw⟩

theorem ingestResult_ok_elim (w : IngestWorld) (docId : String) (pr : ProcResult)
    (idx : RagIndex) (h : ingestResult w docId = Except.ok (pr, idx)) :
    processor_process_document w docId = Except.ok pr ∧
    build_vector_database w.keys w.fresh docId pr.texts pr.tables pr.images
      pr.text_summaries pr.table_summaries pr.image_descriptions pr.image_metadata
      = Except.ok idx := by
  unfold ingestResult at h
  cases hp : processor_process_document w docId with
  | error e => rw [hp] at h; cases h
  | ok pr' =>
    rw [hp] at h
    by_cases hv : w.vectorstoreOk = false
    · simp [hv] at h
    · simp only [hv, if_false] at h
      cases hb : build_vector_database w.keys w.fresh docId pr'.texts pr'.tables pr'.images
          pr'.text_summaries pr'.table_summaries pr'.image_descriptions
          pr'.image_metadata with
      | error e => rw [hb] at h; cases h
      | ok idx' =>
        rw [hb] at h
        injection h with h2
        injection h2 with hpr hidx
        subst hpr
        subst hidx
        exact ⟨rfl, hb⟩

theorem processor_ok_elim (w : IngestWorld) (docId : String) (pr : ProcResult)
    (h : processor_process_document w docId = Except.ok pr) :
    ∃ ex f, w.extraction = Except.ok ex ∧ w.summarize = Except.ok f ∧
      pr.texts = ex.texts ∧ pr.tables = ex.tables ∧ pr.images = ex.images ∧
      pr.text_summaries = ex.texts.map f ∧ pr.table_summaries = ex.tables.map f ∧
      pr.image_descriptions
        = (process_and_save_images docId w.vision w.save ex.images).image_descriptions ∧
      pr.image_metadata
        = (process_and_save_images docId w.vision w.save ex.images).image_metadata ∧
      pr.delays = (process_and_save_images docId w.vision w.save ex.images).delays ∧
      pr.elements_count = ⟨ex.texts.length, ex.tables.length, ex.images.length⟩ := by
  unfold processor_process_document at h
  cases hex : w.extraction with
  | error e => rw [hex] at h; cases h
  | ok ex =>
    rw [hex] at h
    cases hsum : w.summarize with
    | error e => rw [hsum] at h; cases h
    | ok f =>
      rw [hsum] at h
      injection h with h2
      subst h2
      exact ⟨ex, f, rfl, rfl, rfl, rfl, rfl, rfl, rfl, rfl, rfl, rfl, rfl⟩

/-! ### The reachable-state invariant -/

/-- Invariant of every reachable server state:
1. a scheduled background task belongs to a deleted or PROCESSING document;
2. no document has two scheduled tasks;
3. a registered RAG service means a complete paired index and COMPLETED state;
4. a COMPLETED document has a registered RAG service. -/
structure Inv (s : ServerState) : Prop where
  sched_status : ∀ id ∈ s.scheduled,
    getAssoc id s.document_store = none ∨
    ∃ d, getAssoc id s.document_store = some d ∧ d.status = ProcessingStatus.processing
  sched_nodup : s.scheduled.Nodup
  rag_ok : ∀ id idx, getAssoc id s.rag_services = some idx →
    Paired idx ∧ ∃ d, getAssoc id s.document_store = some d ∧
      d.status = ProcessingStatus.completed
  completed_rag : ∀ id d, getAssoc id s.document_store = some d →
    d.status = ProcessingStatus.completed →
    ∃ idx, getAssoc id s.rag_services = some idx

theorem inv_init : Inv initState := by
  refine ⟨?_, ?_, ?_, ?_⟩
  · intro id h
    simp [initState] at h
  · simp [initState]
  · intro id idx h
    simp [initState, getAssoc] at h
  · intro id d h
    simp [initState, getAssoc] at h

theorem inv_upload (s : ServerState) (hInv : Inv s) (fn : String) (size : Nat)
    (id : String) (saveOk : Bool) (now : Nat)
    (hfresh : getAssoc id s.document_store = none ∧ id ∉ s.scheduled) :
    Inv (applyOp s (Op.upload fn size id saveOk now)) := by
  by_cases h1 : pyEndsWith fn ".pdf" = false
  · have hstate : applyOp s (Op.upload fn size id saveOk now) = s := by
      simp [applyOp, upload_document, h1]
    rw [hstate]; exact hInv
  by_cases h2 : MAX_FILE_SIZE < size
  · have hstate : applyOp s (Op.upload fn size id saveOk now) = s := by
      simp [applyOp, upload_document, h1, h2]
    rw [hstate]; exact hInv
  by_cases h3 : saveOk = false
  · have hstate : applyOp s (Op.upload fn size id saveOk now) = s := by
      simp [applyOp, upload_document, h1, h2, h3]
    rw [hstate]; exact hInv
  have hstate : applyOp s (Op.upload fn size id saveOk now) =
      { s with document_store :=
          (updAssoc id
            ⟨fn, UPLOAD_FOLDER ++ "/" ++ id ++ "_" ++ fn, size, now,
             ProcessingStatus.pending, none, none, none⟩ s.document_store) } := by
    simp [applyOp, upload_document, h1, h2, h3]
  rw [hstate]
  refine ⟨?_, hInv.sched_nodup, ?_, ?_⟩
  · intro id' hmem
    have hmem' : id' ∈ s.scheduled := hmem
    have hne : id ≠ id' := fun h => hfresh.2 (h ▸ hmem')
    rcases hInv.sched_status id' hmem' with h | ⟨d', hd', hp'⟩
    · exact Or.inl (by rw [getAssoc_updAssoc_ne hne]; exact h)
    · exact Or.inr ⟨d', by rw [getAssoc_updAssoc_ne hne]; exact hd', hp'⟩
  · intro id' idx h
    obtain ⟨hp, d', hd', hc'⟩ := hInv.rag_ok id' idx h
    by_cases hne : id = id'
    · subst hne
      rw [hfresh.1] at hd'
      cases hd'
    · exact ⟨hp, d', by rw [getAssoc_updAssoc_ne hne]; exact hd', hc'⟩
  · intro id' d' hd' hc'
    by_cases hne : id = id'
    · subst hne
      rw [getAssoc_updAssoc_self] at hd'
      cases hd'
      simp at hc'
    · rw [getAssoc_updAssoc_ne hne] at hd'
      exact hInv.completed_rag id' d' hd' hc'

theorem inv_process (s : ServerState) (hInv : Inv s) (id : String) :
    Inv (applyOp s (Op.process id)) := by
  cases hd : getAssoc id s.document_store with
  | none =>
    have hstate : applyOp s (Op.process id) = s := by
      simp [applyOp, process_document, hd]
    rw [hstate]; exact hInv
  | some d =>
    by_cases h1 : d.status = ProcessingStatus.processing
    · have hstate : applyOp s (Op.process id) = s := by
        simp [applyOp, process_document, hd, h1]
      rw [hstate]; exact hInv
    by_cases h2 : d.status = ProcessingStatus.completed
    · have hstate : applyOp s (Op.process id) = s := by
        simp [applyOp, process_document, hd, h1, h2]
      rw [hstate]; exact hInv
    have hstate : applyOp s (Op.process id) =
        { s with
          scheduled := s.scheduled ++ [id],
          document_store := updAssoc id
            ({ d with status := ProcessingStatus.processing }) s.document_store } := by
      simp [applyOp, process_document, hd, h1, h2]
    rw [hstate]
    have hnotsched : id ∉ s.scheduled := by
      intro hmem
      rcases hInv.sched_status id hmem with h | ⟨d', hd', hp'⟩
      · rw [hd] at h; cases h
      · rw [hd] at hd'
        cases hd'
        exact h1 hp'
    refine ⟨?_, ?_, ?_, ?_⟩
    · intro id' hmem
      have hmem' : id' ∈ s.scheduled ++ [id] := hmem
      rcases List.mem_append.mp hmem' with hmem'' | hmem''
      · by_cases hne : id = id'
        · subst hne
          exact absurd hmem'' hnotsched
        · rcases hInv.sched_status id' hmem'' with h | ⟨d', hd', hp'⟩
          · exact Or.inl (by rw [getAssoc_updAssoc_ne hne]; exact h)
          · exact Or.inr ⟨d', by rw [getAssoc_updAssoc_ne hne]; exact hd', hp'⟩
      · have heq : id' = id := List.mem_singleton.mp hmem''
        subst heq
        exact Or.inr ⟨_, by rw [getAssoc_updAssoc_self], rfl⟩
    · exact List.nodup_append.mpr ⟨hInv.sched_nodup, List.nodup_singleton id,
        fun a ha hb => hnotsched ((List.mem_singleton.mp hb) ▸ ha)⟩
    · intro id' idx h
      obtain ⟨hp, d', hd', hc'⟩ := hInv.rag_ok id' idx h
      by_cases hne : id = id'
      · subst hne
        rw [hd] at hd'
        cases hd'
        exact absurd hc' h2
      · exact ⟨hp, d', by rw [getAssoc_updAssoc_ne hne]; exact hd', hc'⟩
    · intro id' d' hd' hc'
      by_cases hne : id = id'
      · subst hne
        rw [getAssoc_updAssoc_self] at hd'
        cases hd'
        simp at hc'
      · rw [getAssoc_updAssoc_ne hne] at hd'
        exact hInv.completed_rag id' d' hd' hc'

theorem inv_runBg (s : ServerState) (hInv : Inv s) (w : IngestWorld) (id : String)
    (elapsed : Nat) : Inv (applyOp s (Op.runBg w id elapsed)) := by
  by_cases hsched : id ∈ s.scheduled
  · have herase : ∀ id', id' ∈ s.scheduled.erase id → id' ≠ id ∧ id' ∈ s.scheduled :=
      fun id' h => (hInv.sched_nodup.mem_erase_iff.mp h)
    cases hd : getAssoc id s.document_store with
    | none =>
      have hstate : applyOp s (Op.runBg w id elapsed) =
          { s with scheduled := s.scheduled.erase id, runs := s.runs ++ [id] } := by
        simp [applyOp, run_background, hsched, process_document_background, hd]
      rw [hstate]
      refine ⟨?_, hInv.sched_nodup.erase id, hInv.rag_ok, hInv.completed_rag⟩
      intro id' hmem
      exact hInv.sched_status id' (herase id' hmem).2
    | some d =>
      have hdstat : d.status = ProcessingStatus.processing := by
        rcases hInv.sched_status id hsched with h | ⟨d', hd', hp'⟩
        · rw [hd] at h; cases h
        · rw [hd] at hd'
          cases hd'
          exact hp'
      cases hing : ingestResult w id with
      | error e =>
        have hstate : applyOp s (Op.runBg w id elapsed) =
            { s with
              scheduled := s.scheduled.erase id,
              runs := s.runs ++ [id],
              document_store := updAssoc id
                ({ d with status := ProcessingStatus.failed, error_message := some e })
                s.document_store } := by
          simp [applyOp, run_background, hsched, process_document_background, hd, hing]
        rw [hstate]
        refine ⟨?_, hInv.sched_nodup.erase id, ?_, ?_⟩
        · intro id' hmem
          obtain ⟨hne, hmem'⟩ := herase id' hmem
          have hne' : id ≠ id' := fun h => hne h.symm
          rcases hInv.sched_status id' hmem' with h | ⟨d', hd', hp'⟩
          · exact Or.inl (by rw [getAssoc_updAssoc_ne hne']; exact h)
          · exact Or.inr ⟨d', by rw [getAssoc_updAssoc_ne hne']; exact hd', hp'⟩
        · intro id' idx h
          obtain ⟨hp, d', hd', hc'⟩ := hInv.rag_ok id' idx h
          by_cases hne : id = id'
          · subst hne
            rw [hd] at hd'
            cases hd'
            rw [hdstat] at hc'
            exact ProcessingStatus.noConfusion hc'
          · exact ⟨hp, d', by rw [getAssoc_updAssoc_ne hne]; exact hd', hc'⟩
        · intro id' d' hd' hc'
          by_cases hne : id = id'
          · subst hne
            rw [getAssoc_updAssoc_self] at hd'
            cases hd'
            simp at hc'
          · rw [getAssoc_updAssoc_ne hne] at hd'
            exact hInv.completed_rag id' d' hd' hc'
      | ok p =>
        obtain ⟨pr, idx⟩ := p
        have hpaired : Paired idx :=
          build_vector_database_paired _ _ _ _ _ _ _ _ _ _ _
            (ingestResult_ok_elim w id pr idx hing).2
        have hstate : applyOp s (Op.runBg w id elapsed) =
            { s with
              scheduled := s.scheduled.erase id,
              runs := s.runs ++ [id],
              document_store := updAssoc id
                ({ d with status := ProcessingStatus.completed,
                          processing_time := some elapsed,
                          elements_count := some pr.elements_count })
                s.document_store,
              rag_services := updAssoc id idx s.rag_services } := by
          simp [applyOp, run_background, hsched, process_document_background, hd, hing]
        rw [hstate]
        refine ⟨?_, hInv.sched_nodup.erase id, ?_, ?_⟩
        · intro id' hmem
          obtain ⟨hne, hmem'⟩ := herase id' hmem
          have hne' : id ≠ id' := fun h => hne h.symm
          rcases hInv.sched_status id' hmem' with h | ⟨d', hd', hp'⟩
          · exact Or.inl (by rw [getAssoc_updAssoc_ne hne']; exact h)
          · exact Or.inr ⟨d', by rw [getAssoc_updAssoc_ne hne']; exact hd', hp'⟩
        · intro id' idx' h
          by_cases hne : id = id'
          · subst hne
            have h' : getAssoc id (updAssoc id idx s.rag_services) = some idx' := h
            rw [getAssoc_updAssoc_self] at h'
            cases h'
            exact ⟨hpaired, _, by rw [getAssoc_updAssoc_self], rfl⟩
          · have h' : getAssoc id' s.rag_services = some idx' := by
              have h'' : getAssoc id' (updAssoc id idx s.rag_services) = some idx' := h
              rw [getAssoc_updAssoc_ne hne] at h''
              exact h''
            obtain ⟨hp, d', hd', hc'⟩ := hInv.rag_ok id' idx' h'
            exact ⟨hp, d', by rw [getAssoc_updAssoc_ne hne]; exact hd', hc'⟩
        · intro id' d' hd' hc'
          by_cases hne : id = id'
          · subst hne
            exact ⟨idx, by rw [getAssoc_updAssoc_self]⟩
          · rw [getAssoc_updAssoc_ne hne] at hd'
            obtain ⟨idx', hidx'⟩ := hInv.completed_rag id' d' hd' hc'
            exact ⟨idx', by rw [getAssoc_updAssoc_ne hne]; exact hidx'⟩
  · have hstate : applyOp s (Op.runBg w id elapsed) = s := by
      simp [applyOp, run_background, hsched]
    rw [hstate]; exact hInv

theorem inv_delete (s : ServerState) (hInv : Inv s) (id : String) (fsOk : Bool) :
    Inv (applyOp s (Op.delete id fsOk)) := by
  cases hd : getAssoc id s.document_store with
  | none =>
    have hstate : applyOp s (Op.delete id fsOk) = s := by
      simp [applyOp, delete_document, hd]
    rw [hstate]; exact hInv
  | some d =>
    by_cases hfs : fsOk = false
    · have hstate : applyOp s (Op.delete id fsOk) = s := by
        simp [applyOp, delete_document, hd, hfs]
      rw [hstate]; exact hInv
    have hstate : applyOp s (Op.delete id fsOk) =
        { s with
          document_store := delAssoc id s.document_store,
          rag_services := delAssoc id s.rag_services } := by
      simp [applyOp, delete_document, hd, hfs]
    rw [hstate]
    refine ⟨?_, hInv.sched_nodup, ?_, ?_⟩
    · intro id' hmem
      have hmem' : id' ∈ s.scheduled := hmem
      by_cases hne : id = id'
      · exact Or.inl (by rw [getAssoc_delAssoc]; simp [hne])
      · rcases hInv.sched_status id' hmem' with h | ⟨d', hd', hp'⟩
        · exact Or.inl (by rw [getAssoc_delAssoc]; simp only [hne, if_false]; exact h)
        · exact Or.inr ⟨d', by rw [getAssoc_delAssoc]; simp only [hne, if_false]; exact hd',
            hp'⟩
    · intro id' idx h
      have h' : getAssoc id' (delAssoc id s.rag_services) = some idx := h
      rw [getAssoc_delAssoc] at h'
      by_cases hne : id = id'
      · simp [hne] at h'
      · simp only [hne, if_false] at h'
        obtain ⟨hp, d', hd', hc'⟩ := hInv.rag_ok id' idx h'
        exact ⟨hp, d', by rw [getAssoc_delAssoc]; simp only [hne, if_false]; exact hd', hc'⟩
    · intro id' d' hd' hc'
      have h' : getAssoc id' (delAssoc id s.document_store) = some d' := hd'
      rw [getAssoc_delAssoc] at h'
      by_cases hne : id = id'
      · simp [hne] at h'
      · simp only [hne, if_false] at h'
        obtain ⟨idx, hidx⟩ := hInv.completed_rag id' d' h' hc'
        exact ⟨idx, by rw [getAssoc_delAssoc]; simp only [hne, if_false]; exact hidx⟩

theorem inv_preserved (s : ServerState) (hInv : Inv s) (op : Op)
    (hfresh : opFresh s op) : Inv (applyOp s op) := by
  cases op with
  | upload fn size id saveOk now => exact inv_upload s hInv fn size id saveOk now hfresh
  | process id => exact inv_process s hInv id
  | runBg w id elapsed => exact inv_runBg s hInv w id elapsed
  | statusQuery id => exact hInv
  | query request => exact hInv
  | delete id fsOk => exact inv_delete s hInv id fsOk

theorem reachable_inv (s : ServerState) (h : Reachable s) : Inv s := by
  induction h with
  | init => exact inv_init
  | step s' op h hfresh ih => exact inv_preserved s' ih op hfresh

/-! ### Concrete example worlds and states -/

/-- An ingestion world whose extraction call throws (a corrupt document). -/
def wFail : IngestWorld :=
  ⟨Except.error "corrupt pdf", fun _ => Except.error "vision down",
   fun _ _ => Except.error "io error", Except.error "groq down",
   fun n => "key" ++ toString n, fun n => "uid" ++ toString n, true⟩

/-- An ingestion world where every external call succeeds; the document has
one text chunk and nothing else. -/
def wOk : IngestWorld :=
  ⟨Except.ok ⟨["chunk one"], [], []⟩, fun _ => Except.ok "a diagram",
   fun _ _ => Except.ok "abc12345", Except.ok (fun t => t),
   fun n => "key" ++ toString n, fun n => "uid" ++ toString n, true⟩

/-- One document uploaded. -/
def st1 : ServerState := applyOp initState (Op.upload "a.pdf" 100 "d1" true 0)

/-- ... then processing started. -/
def st2 : ServerState := applyOp st1 (Op.process "d1")

/-- ... then the background run failed. -/
def st3 : ServerState := applyOp st2 (Op.runBg wFail "d1" 5)

/-- ... or the background run succeeded. -/
def st4 : ServerState := applyOp st2 (Op.runBg wOk "d1" 5)

def d1pend : DocInfo :=
  ⟨"a.pdf", "storage/uploads/d1_a.pdf", 100, 0, ProcessingStatus.pending,
   none, none, none⟩

def d1done : DocInfo :=
  ⟨"a.pdf", "storage/uploads/d1_a.pdf", 100, 0, ProcessingStatus.completed,
   some 5, some ⟨1, 0, 0⟩, none⟩

theorem st1_reachable : Reachable st1 :=
  Reachable.step initState (Op.upload "a.pdf" 100 "d1" true 0) Reachable.init
    ⟨rfl, List.not_mem_nil "d1"⟩

theorem st2_reachable : Reachable st2 :=
  Reachable.step st1 (Op.process "d1") st1_reachable trivial

theorem st3_reachable : Reachable st3 :=
  Reachable.step st2 (Op.runBg wFail "d1" 5) st2_reachable trivial

theorem st4_reachable : Reachable st4 :=
  Reachable.step st2 (Op.runBg wOk "d1" 5) st2_reachable trivial

/-- The two C1 conclusions, packaged for the operations that leave the
document store untouched. -/
theorem store_unchanged_case (s : ServerState) (id : String) (d : DocInfo)
    (hd : getAssoc id s.document_store = some d) :
    (d.status = ProcessingStatus.completed →
      getAssoc id s.document_store = some d ∨ getAssoc id s.document_store = none) ∧
    (d.status = ProcessingStatus.pending →
      ∀ d', getAssoc id s.document_store = some d' →
        d'.status = ProcessingStatus.pending ∨ d'.status = ProcessingStatus.processing) := by
  refine ⟨fun _ => Or.inl hd, fun hp d' hd' => ?_⟩
  rw [hd] at hd'
  injection hd' with h
  subst h
  exact Or.inl hp

/-! ### The claims -/

/-- C1 (amended): in every reachable state, one further operation never moves
a COMPLETED document anywhere (it stays COMPLETED or is deleted), and from
PENDING the only possible next state is PROCESSING (or it stays PENDING or is
deleted).  The original claim is false for FAILED, see the counterexample:
process-document restarts a FAILED document. -/
theorem C1_amended_monotonic (s : ServerState) (hs : Reachable s) (op : Op)
    (hop : opFresh s op) (id : String) (d : DocInfo)
    (hd : getAssoc id s.document_store = some d) :
    (d.status = ProcessingStatus.completed →
      getAssoc id (applyOp s op).document_store = some d ∨
      getAssoc id (applyOp s op).document_store = none) ∧
    (d.status = ProcessingStatus.pending →
      ∀ d', getAssoc id (applyOp s op).document_store = some d' →
        d'.status = ProcessingStatus.pending ∨ d'.status = ProcessingStatus.processing) := by
  have hInv := reachable_inv s hs
  cases op with
  | upload fn size nid saveOk now =>
    obtain ⟨hfresh1, hfresh2⟩ := hop
    have hne : nid ≠ id := by
      intro h
      subst h
      rw [hfresh1] at hd
      cases hd
    by_cases h1 : pyEndsWith fn ".pdf" = false
    · have hstate : applyOp s (Op.upload fn size nid saveOk now) = s := by
        simp [applyOp, upload_document, h1]
      rw [hstate]
      exact store_unchanged_case s id d hd
    by_cases h2 : MAX_FILE_SIZE < size
    · have hstate : applyOp s (Op.upload fn size nid saveOk now) = s := by
        simp [applyOp, upload_document, h1, h2]
      rw [hstate]
      exact store_unchanged_case s id d hd
    by_cases h3 : saveOk = false
    · have hstate : applyOp s (Op.upload fn size nid saveOk now) = s := by
        simp [applyOp, upload_document, h1, h2, h3]
      rw [hstate]
      exact store_unchanged_case s id d hd
    have hstate : applyOp s (Op.upload fn size nid saveOk now) =
        { s with document_store :=
            (updAssoc nid
              ⟨fn, UPLOAD_FOLDER ++ "/" ++ nid ++ "_" ++ fn, size, now,
               ProcessingStatus.pending, none, none, none⟩ s.document_store) } := by
      simp [applyOp, upload_document, h1, h2, h3]
    rw [hstate]
    have hsame : getAssoc id
        (updAssoc nid
          (⟨fn, UPLOAD_FOLDER ++ "/" ++ nid ++ "_" ++ fn, size, now,
            ProcessingStatus.pending, none, none, none⟩ : DocInfo) s.document_store)
        = getAssoc id s.document_store := getAssoc_updAssoc_ne hne _ _
    refine ⟨fun _ => Or.inl (by rw [hsame]; exact hd), fun hp d' hd' => ?_⟩
    rw [hsame, hd] at hd'
    injection hd' with h
    subst h
    exact Or.inl hp
  | process pid =>
    cases hd2 : getAssoc pid s.document_store with
    | none =>
      have hstate : applyOp s (Op.process pid) = s := by
        simp [applyOp, process_document, hd2]
      rw [hstate]
      exact store_unchanged_case s id d hd
    | some dp =>
      by_cases h1 : dp.status = ProcessingStatus.processing
      · have hstate : applyOp s (Op.process pid) = s := by
          simp [applyOp, process_document, hd2, h1]
        rw [hstate]
        exact store_unchanged_case s id d hd
      by_cases h2 : dp.status = ProcessingStatus.completed
      · have hstate : applyOp s (Op.process pid) = s := by
          simp [applyOp, process_document, hd2, h1, h2]
        rw [hstate]
        exact store_unchanged_case s id d hd
      have hstate : applyOp s (Op.process pid) =
          { s with
            scheduled := s.scheduled ++ [pid],
            document_store := updAssoc pid
              ({ dp with status := ProcessingStatus.processing }) s.document_store } := by
        simp [applyOp, process_document, hd2, h1, h2]
      rw [hstate]
      by_cases hpe : pid = id
      · subst hpe
        rw [hd] at hd2
        injection hd2 with hdp
        subst hdp
        refine ⟨fun hc => absurd hc h2, fun hp d' hd' => ?_⟩
        rw [getAssoc_updAssoc_self] at hd'
        injection hd' with h
        subst h
        exact Or.inr rfl
      · have hsame : getAssoc id
            (updAssoc pid ({ dp with status := ProcessingStatus.processing })
              s.document_store) = getAssoc id s.document_store :=
          getAssoc_updAssoc_ne hpe _ _
        refine ⟨fun _ => Or.inl (by rw [hsame]; exact hd), fun hp d' hd' => ?_⟩
        rw [hsame, hd] at hd'
        injection hd' with h
        subst h
        exact Or.inl hp
  | runBg w bid elapsed =>
    by_cases hsched : bid ∈ s.scheduled
    · cases hd2 : getAssoc bid s.document_store with
      | none =>
        have hstate : applyOp s (Op.runBg w bid elapsed) =
            { s with scheduled := s.scheduled.erase bid, runs := s.runs ++ [bid] } := by
          simp [applyOp, run_background, hsched, process_document_background, hd2]
        rw [hstate]
        exact store_unchanged_case s id d hd
      | some db =>
        have hdbstat : db.status = ProcessingStatus.processing := by
          rcases hInv.sched_status bid hsched with h | ⟨d', hd', hp'⟩
          · rw [hd2] at h; cases h
          · rw [hd2] at hd'
            injection hd' with h
            subst h
            exact hp'
        by_cases hpe : bid = id
        · subst hpe
          rw [hd] at hd2
          injection hd2 with hdb
          subst hdb
          refine ⟨fun hc => ?_, fun hp => ?_⟩
          · rw [hdbstat] at hc
            exact ProcessingStatus.noConfusion hc
          · rw [hdbstat] at hp
            exact ProcessingStatus.noConfusion hp
        · cases hing : ingestResult w bid with
          | error e =>
            have hstate : applyOp s (Op.runBg w bid elapsed) =
                { s with
                  scheduled := s.scheduled.erase bid,
                  runs := s.runs ++ [bid],
                  document_store := updAssoc bid
                    ({ db with status := ProcessingStatus.failed,
                               error_message := some e }) s.document_store } := by
              simp [applyOp, run_background, hsched, process_document_background, hd2, hing]
            rw [hstate]
            have hsame :
                getAssoc id
                  (updAssoc bid
                    ({ db with status := ProcessingStatus.failed, error_message := some e })
                    s.document_store)
                = getAssoc id s.document_store := getAssoc_updAssoc_ne hpe _ _
            refine ⟨fun _ => Or.inl (by rw [hsame]; exact hd), fun hp d' hd' => ?_⟩
            rw [hsame, hd] at hd'
            injection hd' with h
            subst h
            exact Or.inl hp
          | ok p =>
            obtain ⟨pr, idx⟩ := p
            have hstate : applyOp s (Op.runBg w bid elapsed) =
                { s with
                  scheduled := s.scheduled.erase bid,
                  runs := s.runs ++ [bid],
                  document_store := updAssoc bid
                    ({ db with status := ProcessingStatus.completed,
                               processing_time := some elapsed,
                               elements_count := some pr.elements_count })
                    s.document_store,
                  rag_services := updAssoc bid idx s.rag_services } := by
              simp [applyOp, run_background, hsched, process_document_background, hd2, hing]
            rw [hstate]
            have hsame :
                getAssoc id
                  (updAssoc bid
                    ({ db with
                        status := ProcessingStatus.completed,
                        processing_time := some elapsed,
                        elements_count := some pr.elements_count })
                    s.document_store)
                = getAssoc id s.document_store := getAssoc_updAssoc_ne hpe _ _
            refine ⟨fun _ => Or.inl (by rw [hsame]; exact hd), fun hp d' hd' => ?_⟩
            rw [hsame, hd] at hd'
            injection hd' with h
            subst h
            exact Or.inl hp
    · have hstate : applyOp s (Op.runBg w bid elapsed) = s := by
        simp [applyOp, run_background, hsched]
      rw [hstate]
      exact store_unchanged_case s id d hd
  | statusQuery qid => exact store_unchanged_case s id d hd
  | query request => exact store_unchanged_case s id d hd
  | delete did fsOk =>
    cases hd2 : getAssoc did s.document_store with
    | none =>
      have hstate : applyOp s (Op.delete did fsOk) = s := by
        simp [applyOp, delete_document, hd2]
      rw [hstate]
      exact store_unchanged_case s id d hd
    | some dd =>
      by_cases hfs : fsOk = false
      · have hstate : applyOp s (Op.delete did fsOk) = s := by
          simp [applyOp, delete_document, hd2, hfs]
        rw [hstate]
        exact store_unchanged_case s id d hd
      have hstate : applyOp s (Op.delete did fsOk) =
          { s with
            document_store := delAssoc did s.document_store,
            rag_services := delAssoc did s.rag_services } := by
        simp [applyOp, delete_document, hd2, hfs]
      rw [hstate]
      by_cases hpe : did = id
      · have hnone : getAssoc id (delAssoc did s.document_store) = none := by
          rw [getAssoc_delAssoc]
          simp [hpe]
        refine ⟨fun _ => Or.inr hnone, fun hp d' hd' => ?_⟩
        rw [hnone] at hd'
        cases hd'
      · have hsame : getAssoc id (delAssoc did s.document_store)
            = getAssoc id s.document_store := by
          rw [getAssoc_delAssoc]
          simp [hpe]
        refine ⟨fun _ => Or.inl (by rw [hsame]; exact hd), fun hp d' hd' => ?_⟩
        rw [hsame, hd] at hd'
        injection hd' with h
        subst h
        exact Or.inl hp

/-- C1 witness: the amended theorem applied to the freshly uploaded PENDING
document and a process-document call. -/
theorem C1_amended_monotonic_witness :
    (d1pend.status = ProcessingStatus.completed →
      getAssoc "d1" (applyOp st1 (Op.process "d1")).document_store = some d1pend ∨
      getAssoc "d1" (applyOp st1 (Op.process "d1")).document_store = none) ∧
    (d1pend.status = ProcessingStatus.pending →
      ∀ d', getAssoc "d1" (applyOp st1 (Op.process "d1")).document_store = some d' →
        d'.status = ProcessingStatus.pending ∨ d'.status = ProcessingStatus.processing) :=
  C1_amended_monotonic st1 st1_reachable (Op.process "d1") trivial "d1" d1pend (by rfl)

/-- C1 counterexample: upload → process → failing background run leaves the
document FAILED, and one more process-document call moves it back to
PROCESSING — contradicting the claim that FAILED never returns to
PENDING/PROCESSING. -/
theorem C1_counterexample :
    Reachable st3 ∧
    (getAssoc "d1" st3.document_store).map DocInfo.status
      = some ProcessingStatus.failed ∧
    (getAssoc "d1" (applyOp st3 (Op.process "d1")).document_store).map DocInfo.status
      = some ProcessingStatus.processing := by
  exact ⟨st3_reachable, by rfl, by rfl⟩

/-- C4: calling process-document on a document already PROCESSING or COMPLETED
is a no-op returning the current state without scheduling anything, and two
calls in succession on a PENDING document schedule exactly one ingestion run;
in every case the same id is never scheduled twice. -/
theorem C4_start_processing_idempotent (s : ServerState) (hs : Reachable s)
    (id : String) (d : DocInfo) (hd : getAssoc id s.document_store = some d) :
    (d.status = ProcessingStatus.processing →
      process_document s id
        = Except.ok (s, ⟨ProcessingStatus.processing, msg_already_processing, id⟩)) ∧
    (d.status = ProcessingStatus.completed →
      process_document s id
        = Except.ok (s, ⟨ProcessingStatus.completed, msg_already_completed, id⟩)) ∧
    (d.status = ProcessingStatus.pending →
      applyOp (applyOp s (Op.process id)) (Op.process id) = applyOp s (Op.process id) ∧
      (applyOp s (Op.process id)).scheduled.count id = 1 ∧
      (applyOp s (Op.process id)).runs = s.runs) ∧
    (applyOp (applyOp s (Op.process id)) (Op.process id)).scheduled.count id ≤ 1 := by
  have hInv := reachable_inv s hs
  refine ⟨?_, ?_, ?_, ?_⟩
  · intro h1
    simp [process_document, hd, h1]
  · intro h2
    simp [process_document, hd, h2]
  · intro hp
    have hns : id ∉ s.scheduled := by
      intro hmem
      rcases hInv.sched_status id hmem with h | ⟨d', hd', hp'⟩
      · rw [hd] at h; cases h
      · rw [hd] at hd'
        injection hd' with h
        subst h
        rw [hp] at hp'
        exact ProcessingStatus.noConfusion hp'
    have hstate : applyOp s (Op.process id) =
        { s with
          scheduled := s.scheduled ++ [id],
          document_store := updAssoc id
            ({ d with status := ProcessingStatus.processing }) s.document_store } := by
      simp [applyOp, process_document, hd, hp]
    have hd2 : getAssoc id (applyOp s (Op.process id)).document_store
        = some ({ d with status := ProcessingStatus.processing }) := by
      rw [hstate]
      exact getAssoc_updAssoc_self _ _ _
    refine ⟨?_, ?_, ?_⟩
    · rw [hstate]
      have hd2' : getAssoc id
          (updAssoc id ({ d with status := ProcessingStatus.processing }) s.document_store)
          = some ({ d with status := ProcessingStatus.processing }) :=
        getAssoc_updAssoc_self _ _ _
      simp [applyOp, process_document, hd2']
    · rw [hstate]
      have h0 : s.scheduled.count id = 0 := List.count_eq_zero.mpr hns
      simp [List.count_append, h0]
    · rw [hstate]
  · have hr2 : Reachable (applyOp (applyOp s (Op.process id)) (Op.process id)) :=
      Reachable.step (applyOp s (Op.process id)) (Op.process id)
        (Reachable.step s (Op.process id) hs trivial) trivial
    exact List.nodup_iff_count_le_one.mp (reachable_inv _ hr2).sched_nodup id

/-- C4 witness: the theorem applied to the freshly uploaded PENDING document. -/
theorem C4_start_processing_idempotent_witness :
    (d1pend.status = ProcessingStatus.processing →
      process_document st1 "d1"
        = Except.ok (st1, ⟨ProcessingStatus.processing, msg_already_processing, "d1"⟩)) ∧
    (d1pend.status = ProcessingStatus.completed →
      process_document st1 "d1"
        = Except.ok (st1, ⟨ProcessingStatus.completed, msg_already_completed, "d1"⟩)) ∧
    (d1pend.status = ProcessingStatus.pending →
      applyOp (applyOp st1 (Op.process "d1")) (Op.process "d1")
          = applyOp st1 (Op.process "d1") ∧
      (applyOp st1 (Op.process "d1")).scheduled.count "d1" = 1 ∧
      (applyOp st1 (Op.process "d1")).runs = st1.runs) ∧
    (applyOp (applyOp st1 (Op.process "d1")) (Op.process "d1")).scheduled.count "d1" ≤ 1 :=
  C4_start_processing_idempotent st1 st1_reachable "d1" d1pend (by rfl)

/-- C2 (amended): the queries.py endpoint (POST /query) never raises for a
registered document in any reachable state — every retrieval/generation
failure is caught and converted to a degraded QueryResponse carrying a
machine-readable status_info.  The claim as stated is false for the second
cited function, the legacy endpoint in documents.py (POST
/query/{document_id}), which raises HTTPException instead: 400 for a
registered non-COMPLETED document and 500 when the RAG query throws — see the
counterexample. -/
theorem C2_amended_query_never_throws (s : ServerState) (hs : Reachable s)
    (request : QueryRequest) (d : DocInfo)
    (hd : getAssoc request.document_id s.document_store = some d)
    (ragQuery : RagIndex → String → Nat → Except String QueryResponse) :
    ∃ r, queries_query_document s request ragQuery = Except.ok r ∧
      r.status_info ≠ none := by
  have hInv := reachable_inv s hs
  cases hst : d.status with
  | pending =>
    exact ⟨⟨pendingAnswer, request.document_id, 0, [], [], some 0,
      some ⟨"pending", "Document is queued for processing", some "1-2 minutes", none⟩⟩,
      by simp [queries_query_document, hd, hst], by simp⟩
  | processing =>
    exact ⟨⟨processingAnswer, request.document_id, 0, [], [], some 0,
      some ⟨"processing", "Document is being processed", some "30-120 seconds", none⟩⟩,
      by simp [queries_query_document, hd, hst], by simp⟩
  | failed =>
    exact ⟨⟨failedAnswer, request.document_id, 0, [], [], some 0,
      some ⟨"failed", "Document processing failed", none,
        some "Re-upload document or contact support"⟩⟩,
      by simp [queries_query_document, hd, hst], by simp⟩
  | completed =>
    obtain ⟨idx, hidx⟩ := hInv.completed_rag request.document_id d hd hst
    cases hq : ragQuery idx request.question (maxResultsOr5 request.max_results) with
    | ok r =>
      exact ⟨{ r with status_info :=
          (some ⟨"completed", "Query completed successfully", none, none⟩) },
        by simp [queries_query_document, hd, hst, hidx, hq], by simp⟩
    | error e =>
      exact ⟨⟨errorAnswer, request.document_id, 0, [], [], some 0,
        some ⟨"error", "Query processing error: " ++ e, none,
          some "Try again or contact support"⟩⟩,
        by simp [queries_query_document, hd, hst, hidx, hq], by simp⟩

/-- C2 witness: the amended theorem applied to a COMPLETED document whose RAG
query throws. -/
theorem C2_amended_query_never_throws_witness :
    ∃ r, queries_query_document st4 ⟨"d1", "q", none⟩
        (fun _ _ _ => Except.error "boom") = Except.ok r ∧
      r.status_info ≠ none :=
  C2_amended_query_never_throws st4 st4_reachable ⟨"d1", "q", none⟩ d1done (by rfl)
    (fun _ _ _ => Except.error "boom")

/-- C2 counterexample: in the reachable state with one COMPLETED document, the
legacy query endpoint of documents.py propagates a generation failure as
HTTPException 500 instead of returning a QueryResponse — the query operation
does raise to its caller. -/
theorem C2_counterexample :
    Reachable st4 ∧
    documents_query_document st4 "d1" ⟨"d1", "q", none⟩
        (fun _ _ _ => Except.error "boom")
      = Except.error (ApiError.http 500 "Query failed: boom") := by
  exact ⟨st4_reachable, by rfl⟩

/-- C3: querying a registered document that is not COMPLETED returns (without
any exception) the status-aware canned QueryResponse: a per-state distinct
user-facing answer, empty sources, empty related_images, zero
confidence_score, and a status_info naming the state. -/
theorem C3_non_completed_status_answer (s : ServerState) (request : QueryRequest)
    (d : DocInfo) (hd : getAssoc request.document_id s.document_store = some d)
    (hne : d.status ≠ ProcessingStatus.completed)
    (ragQuery : RagIndex → String → Nat → Except String QueryResponse) :
    (∃ si, queries_query_document s request ragQuery = Except.ok
        ⟨(match d.status with
          | ProcessingStatus.pending => pendingAnswer
          | ProcessingStatus.processing => processingAnswer
          | _ => failedAnswer),
         request.document_id, 0, [], [], some 0, some si⟩ ∧
      si.status = (match d.status with
          | ProcessingStatus.pending => "pending"
          | ProcessingStatus.processing => "processing"
          | _ => "failed")) ∧
    pendingAnswer ≠ processingAnswer ∧ pendingAnswer ≠ failedAnswer ∧
    processingAnswer ≠ failedAnswer := by
  refine ⟨?_, by decide, by decide, by decide⟩
  cases hst : d.status with
  | pending =>
    exact ⟨⟨"pending", "Document is queued for processing", some "1-2 minutes", none⟩,
      by simp [queries_query_document, hd, hst], rfl⟩
  | processing =>
    exact ⟨⟨"processing", "Document is being processed", some "30-120 seconds", none⟩,
      by simp [queries_query_document, hd, hst], rfl⟩
  | failed =>
    exact ⟨⟨"failed", "Document processing failed", none,
      some "Re-upload document or contact support"⟩,
      by simp [queries_query_document, hd, hst], rfl⟩
  | completed => exact absurd hst hne

/-- C3 witness: the theorem applied to the PENDING document of `st1`. -/
theorem C3_non_completed_status_answer_witness :
    (∃ si, queries_query_document st1 ⟨"d1", "what", none⟩
        (fun _ _ _ => Except.error "backend down") = Except.ok
        ⟨(match d1pend.status with
          | ProcessingStatus.pending => pendingAnswer
          | ProcessingStatus.processing => processingAnswer
          | _ => failedAnswer),
         "d1", 0, [], [], some 0, some si⟩ ∧
      si.status = (match d1pend.status with
          | ProcessingStatus.pending => "pending"
          | ProcessingStatus.processing => "processing"
          | _ => "failed")) ∧
    pendingAnswer ≠ processingAnswer ∧ pendingAnswer ≠ failedAnswer ∧
    processingAnswer ≠ failedAnswer :=
  C3_non_completed_status_answer st1 ⟨"d1", "what", none⟩ d1pend (by rfl) (by decide)
    (fun _ _ _ => Except.error "backend down")

/-- C8 (amended): registration is not failure-free on arbitrary input — it
validates: a filename not ending in `.pdf` or a size above MAX_FILE_SIZE is
rejected with InvalidFileError; for a `.pdf` within the limit whose byte write
succeeds, upload registers a PENDING document and an immediate status query
returns PENDING. -/
theorem C8_amended_upload_validates (s : ServerState) (fn : String) (size : Nat)
    (id : String) (now : Nat) (hpdf : pyEndsWith fn ".pdf" = true)
    (hsize : size ≤ MAX_FILE_SIZE) :
    (∃ s' r, upload_document s fn size id true now = Except.ok (s', r) ∧
      r.status = ProcessingStatus.pending ∧
      get_document_status s' id
        = Except.ok ⟨id, ProcessingStatus.pending, fn, now, none, none⟩) ∧
    (∀ fn2 size2, pyEndsWith fn2 ".pdf" = false →
      upload_document s fn2 size2 id true now
        = Except.error (ApiError.invalidFile "Only PDF files are allowed")) ∧
    (∀ size2, MAX_FILE_SIZE < size2 →
      upload_document s fn size2 id true now
        = Except.error (ApiError.invalidFile
            ("File too large. Max size: " ++ toString MAX_FILE_SIZE ++ " bytes"))) := by
  have hnl : ¬ MAX_FILE_SIZE < size := Nat.not_lt.mpr hsize
  refine ⟨?_, ?_, ?_⟩
  · refine ⟨{ s with document_store :=
        (updAssoc id
          ⟨fn, UPLOAD_FOLDER ++ "/" ++ id ++ "_" ++ fn, size, now,
           ProcessingStatus.pending, none, none, none⟩ s.document_store) },
      ⟨id, fn, size, now, ProcessingStatus.pending⟩, ?_, rfl, ?_⟩
    · simp [upload_document, hpdf, hnl]
    · have hget : getAssoc id
          (updAssoc id
            (⟨fn, UPLOAD_FOLDER ++ "/" ++ id ++ "_" ++ fn, size, now,
              ProcessingStatus.pending, none, none, none⟩ : DocInfo) s.document_store)
          = some ⟨fn, UPLOAD_FOLDER ++ "/" ++ id ++ "_" ++ fn, size, now,
              ProcessingStatus.pending, none, none, none⟩ := getAssoc_updAssoc_self _ _ _
      simp [get_document_status, hget]
  · intro fn2 size2 h
    simp [upload_document, h]
  · intro size2 h
    simp [upload_document, hpdf, h]

/-- C8 witness: the amended theorem at a concrete valid upload. -/
theorem C8_amended_upload_validates_witness :
    (∃ s' r, upload_document initState "b.pdf" 5 "d2" true 0 = Except.ok (s', r) ∧
      r.status = ProcessingStatus.pending ∧
      get_document_status s' "d2"
        = Except.ok ⟨"d2", ProcessingStatus.pending, "b.pdf", 0, none, none⟩) ∧
    (∀ fn2 size2, pyEndsWith fn2 ".pdf" = false →
      upload_document initState fn2 size2 "d2" true 0
        = Except.error (ApiError.invalidFile "Only PDF files are allowed")) ∧
    (∀ size2, MAX_FILE_SIZE < size2 →
      upload_document initState "b.pdf" size2 "d2" true 0
        = Except.error (ApiError.invalidFile
            ("File too large. Max size: " ++ toString MAX_FILE_SIZE ++ " bytes"))) :=
  C8_amended_upload_validates initState "b.pdf" 5 "d2" 0 (by decide) (by decide)

/-- C8 counterexample: upload fails for reasons tied to the input's name and
size — a non-.pdf filename and an oversized file are both rejected with
InvalidFileError even though storage is fine. -/
theorem C8_counterexample :
    upload_document initState "notes.txt" 10 "d9" true 0
      = Except.error (ApiError.invalidFile "Only PDF files are allowed") ∧
    upload_document initState "big.pdf" (MAX_FILE_SIZE + 1) "d9" true 0
      = Except.error (ApiError.invalidFile
          ("File too large. Max size: " ++ toString MAX_FILE_SIZE ++ " bytes")) := by
  constructor
  · rfl
  · rfl

/-- C5: (1) in every reachable state, every registered RAG index pairs each of
its vectors with a raw-content docstore entry under the same retrieval key (no
orphaned vectors) and belongs to a COMPLETED document; (2) an ingestion run
that aborts with an exception marks the document FAILED and registers no
index; (3) a query against a non-COMPLETED document is independent of the RAG
query function — it cannot observe any index, partial or otherwise. -/
theorem C5_index_pairing_and_abort_isolation (s : ServerState) (hs : Reachable s) :
    (∀ id idx, getAssoc id s.rag_services = some idx →
      (∀ v ∈ idx.vectors, ∃ raw, (v.doc_id, raw) ∈ idx.docstore) ∧
      ∃ d, getAssoc id s.document_store = some d ∧
        d.status = ProcessingStatus.completed) ∧
    (∀ w id elapsed e d, ingestResult w id = Except.error e →
      getAssoc id s.document_store = some d → id ∈ s.scheduled →
      getAssoc id (run_background w s id elapsed).rag_services
        = getAssoc id s.rag_services ∧
      ∃ d', getAssoc id (run_background w s id elapsed).document_store = some d' ∧
        d'.status = ProcessingStatus.failed) ∧
    (∀ request rq1 rq2 d, getAssoc request.document_id s.document_store = some d →
      d.status ≠ ProcessingStatus.completed →
      queries_query_document s request rq1 = queries_query_document s request rq2) := by
  have hInv := reachable_inv s hs
  refine ⟨?_, ?_, ?_⟩
  · intro id idx h
    obtain ⟨hp, d, hd, hc⟩ := hInv.rag_ok id idx h
    exact ⟨hp, d, hd, hc⟩
  · intro w id elapsed e d hing hd hsched
    have hstate : run_background w s id elapsed =
        { s with
          scheduled := s.scheduled.erase id,
          runs := s.runs ++ [id],
          document_store := updAssoc id
            ({ d with status := ProcessingStatus.failed, error_message := some e })
            s.document_store } := by
      simp [run_background, hsched, process_document_background, hd, hing]
    rw [hstate]
    exact ⟨rfl, ⟨{ d with status := ProcessingStatus.failed, error_message := some e },
      getAssoc_updAssoc_self _ _ _, rfl⟩⟩
  · intro request rq1 rq2 d hd hne
    cases hst : d.status with
    | pending => simp [queries_query_document, hd, hst]
    | processing => simp [queries_query_document, hd, hst]
    | failed => simp [queries_query_document, hd, hst]
    | completed => exact absurd hst hne

/-- C5 witness: the theorem at the reachable state with one fully ingested
document. -/
theorem C5_index_pairing_and_abort_isolation_witness :
    (∀ id idx, getAssoc id st4.rag_services = some idx →
      (∀ v ∈ idx.vectors, ∃ raw, (v.doc_id, raw) ∈ idx.docstore) ∧
      ∃ d, getAssoc id st4.document_store = some d ∧
        d.status = ProcessingStatus.completed) ∧
    (∀ w id elapsed e d, ingestResult w id = Except.error e →
      getAssoc id st4.document_store = some d → id ∈ st4.scheduled →
      getAssoc id (run_background w st4 id elapsed).rag_services
        = getAssoc id st4.rag_services ∧
      ∃ d', getAssoc id (run_background w st4 id elapsed).document_store = some d' ∧
        d'.status = ProcessingStatus.failed) ∧
    (∀ request rq1 rq2 d, getAssoc request.document_id st4.document_store = some d →
      d.status ≠ ProcessingStatus.completed →
      queries_query_document st4 request rq1 = queries_query_document st4 request rq2) :=
  C5_index_pairing_and_abort_isolation st4 st4_reachable

/-! ### Length lemmas for the index build -/

theorem length_if_docs {β : Type} (ts texts ids : List String)
    (g : String × String → β) (hts : ts.length = texts.length)
    (hids : ids.length = texts.length) :
    (if ts.isEmpty then ([] : List β) else (ids.zip texts).map g).length
      = texts.length := by
  cases ts with
  | nil =>
    have h0 : texts.length = 0 := by simpa using hts.symm
    simp [h0]
  | cons a l =>
    simp [List.length_zip, hids]

theorem build_ok_lengths (keys fresh : Nat → String) (docId : String)
    (texts tables images ts tbs descs : List String) (meta : List ImageMeta)
    (idx : RagIndex) (hts : ts.length = texts.length) (htbs : tbs.length = tables.length)
    (h : build_vector_database keys fresh docId texts tables images ts tbs descs meta
        = Except.ok idx) :
    idx.vectors.length = texts.length + tables.length + descs.length ∧
    idx.docstore.length = texts.length + tables.length + descs.length ∧
    descs.length ≤ images.length := by
  unfold build_vector_database at h
  have hg1 : ¬ texts.length < ts.length := by omega
  have hg2 : ¬ tables.length < tbs.length := by omega
  simp only [hg1, hg2, if_false] at h
  cases hloop : imageLoop
      ((List.range images.length).map (fun i => keys (texts.length + tables.length + i)))
      meta fresh docId 0 descs with
  | error e => rw [hloop] at h; cases h
  | ok p =>
    obtain ⟨imgVecs, imgDocs⟩ := p
    rw [hloop] at h
    injection h with h2
    subst h2
    obtain ⟨hv_len, hd_len, hle⟩ := imageLoop_ok_lengths _ _ _ _ _ _ _ _ hloop
    have hids_len : ((List.range images.length).map
        (fun i => keys (texts.length + tables.length + i))).length = images.length := by
      simp
    have hdesc_le : descs.length ≤ images.length := by
      cases descs with
      | nil => simp
      | cons a l =>
        have hne : (a :: l) ≠ ([] : List String) := by simp
        have hb := hle hne
        rw [hids_len] at hb
        omega
    have h1 := length_if_docs ts texts ((List.range texts.length).map keys)
      (fun p => (p.1, RawContent.text p.2)) hts (by simp)
    have h2 := length_if_docs tbs tables
      ((List.range tables.length).map (fun i => keys (texts.length + i)))
      (fun p => (p.1, RawContent.table p.2)) htbs (by simp)
    refine ⟨?_, ?_, hdesc_le⟩
    · simp only [List.length_append, List.length_zip, List.length_map, List.length_range,
        hv_len, hts, htbs]
      omega
    · simp only [List.length_append, h1, h2, hd_len]

theorem build_ok_of_le (keys fresh : Nat → String) (docId : String)
    (texts tables images ts tbs descs : List String) (meta : List ImageMeta)
    (hts : ts.length ≤ texts.length) (htbs : tbs.length ≤ tables.length)
    (hdescs : descs.length ≤ images.length) :
    ∃ idx, build_vector_database keys fresh docId texts tables images ts tbs descs meta
        = Except.ok idx := by
  cases hres : build_vector_database keys fresh docId texts tables images ts tbs descs
      meta with
  | ok idx => exact ⟨idx, rfl⟩
  | error e =>
    exfalso
    unfold build_vector_database at hres
    have hg1 : ¬ texts.length < ts.length := by omega
    have hg2 : ¬ tables.length < tbs.length := by omega
    simp only [hg1, hg2, if_false] at hres
    cases hloop : imageLoop
        ((List.range images.length).map
          (fun i => keys (texts.length + tables.length + i)))
        meta fresh docId 0 descs with
    | error e' =>
      have hbound : 0 + descs.length
          ≤ ((List.range images.length).map
              (fun i => keys (texts.length + tables.length + i))).length := by
        simp only [List.length_map, List.length_range]
        omega
      exact imageLoop_ne_error _ _ _ _ descs 0 hbound e' hloop
    | ok p =>
      obtain ⟨vs, ds⟩ := p
      rw [hloop] at hres
      cases hres

/-- A successful ingestion run on a scheduled document ends COMPLETED with its
index registered. -/
theorem run_background_completed (w : IngestWorld) (s : ServerState) (id : String)
    (elapsed : Nat) (pr : ProcResult) (idx : RagIndex)
    (hing : ingestResult w id = Except.ok (pr, idx)) (hsched : id ∈ s.scheduled)
    (d : DocInfo) (hd : getAssoc id s.document_store = some d) :
    ∃ d', getAssoc id (run_background w s id elapsed).document_store = some d' ∧
      d'.status = ProcessingStatus.completed ∧
      getAssoc id (run_background w s id elapsed).rag_services = some idx := by
  have hstate : run_background w s id elapsed =
      { s with
        scheduled := s.scheduled.erase id,
        runs := s.runs ++ [id],
        document_store :=
          (updAssoc id
            ({ d with status := ProcessingStatus.completed,
                      processing_time := some elapsed,
                      elements_count := some pr.elements_count }) s.document_store),
        rag_services := updAssoc id idx s.rag_services } := by
    simp [run_background, hsched, process_document_background, hd, hing]
  rw [hstate]
  exact ⟨_, getAssoc_updAssoc_self _ _ _, rfl, getAssoc_updAssoc_self _ _ _⟩

/-- C6: for every ingestion run that completes successfully, the sum of the
recorded unit counts (texts + tables + images) equals the number of vectors in
the built index, which equals the number of raw-content docstore entries (one
vector/raw-content pair per unit). -/
theorem C6_unit_counts_match_index (w : IngestWorld) (docId : String)
    (pr : ProcResult) (idx : RagIndex)
    (h : ingestResult w docId = Except.ok (pr, idx)) :
    pr.elements_count.texts + pr.elements_count.tables + pr.elements_count.images
      = idx.vectors.length ∧
    idx.vectors.length = idx.docstore.length := by
  obtain ⟨hproc, hbuild⟩ := ingestResult_ok_elim w docId pr idx h
  obtain ⟨ex, f, hex, hsum, ht, htb, him, hts, htbs, hdesc, hmeta, hdel, hcount⟩ :=
    processor_ok_elim w docId pr hproc
  have hts_len : pr.text_summaries.length = pr.texts.length := by
    rw [hts, ht, List.length_map]
  have htbs_len : pr.table_summaries.length = pr.tables.length := by
    rw [htbs, htb, List.length_map]
  obtain ⟨hv_len, hdoc_len, hle⟩ := build_ok_lengths w.keys w.fresh docId pr.texts
    pr.tables pr.images pr.text_summaries pr.table_summaries pr.image_descriptions
    pr.image_metadata idx hts_len htbs_len hbuild
  have hge : pr.images.length ≤ pr.image_descriptions.length := by
    rw [hdesc, him]
    exact processImagesFrom_desc_ge docId w.vision w.save ex.images 0
  have hcnt : pr.elements_count.texts = pr.texts.length ∧
      pr.elements_count.tables = pr.tables.length ∧
      pr.elements_count.images = pr.images.length := by
    rw [hcount, ht, htb, him]
    exact ⟨rfl, rfl, rfl⟩
  obtain ⟨hc1, hc2, hc3⟩ := hcnt
  constructor
  · omega
  · omega

/-- C6 expected processor result for the one-text world `wOk`. -/
def prOk : ProcResult :=
  ⟨⟨1, 0, 0⟩, ["chunk one"], [], [], ["chunk one"], [], [], [], []⟩

/-- C6 expected index for the one-text world `wOk`. -/
def idxOk : RagIndex :=
  ⟨[⟨"chunk one", "key0", "text"⟩], [("key0", RawContent.text "chunk one")]⟩

/-- C6 witness: the theorem at the concrete successful run of `wOk`. -/
theorem C6_unit_counts_match_index_witness :
    prOk.elements_count.texts + prOk.elements_count.tables + prOk.elements_count.images
      = idxOk.vectors.length ∧
    idxOk.vectors.length = idxOk.docstore.length :=
  C6_unit_counts_match_index wOk "d1" prOk idxOk (by rfl)

/-- C7: a vision-description failure for any image is non-fatal — the
description recorded for that image is the error placeholder, every other
image and unit is still processed and indexed (one vector per unit), the run
completes, and a scheduled background execution ends in COMPLETED. -/
theorem C7_vision_failure_non_fatal (w : IngestWorld) (docId : String)
    (ex : ExtractResult) (hex : w.extraction = Except.ok ex)
    (hsave : ∀ i img, ∃ u, w.save i img = Except.ok u)
    (hsum : ∃ f, w.summarize = Except.ok f)
    (hvs : w.vectorstoreOk = true) :
    ∃ pr idx, ingestResult w docId = Except.ok (pr, idx) ∧
      pr.image_descriptions = ex.images.map (describe_image w.vision) ∧
      (∀ i img e, ex.images.get? i = some img → w.vision img = Except.error e →
        pr.image_descriptions.get? i = some ("Error processing image: " ++ e)) ∧
      idx.vectors.length
        = ex.texts.length + ex.tables.length + ex.images.length ∧
      (∀ s d elapsed, docId ∈ s.scheduled → getAssoc docId s.document_store = some d →
        ∃ d', getAssoc docId (run_background w s docId elapsed).document_store = some d' ∧
          d'.status = ProcessingStatus.completed) := by
  obtain ⟨f, hf⟩ := hsum
  have hdescs : (process_and_save_images docId w.vision w.save ex.images).image_descriptions
      = ex.images.map (describe_image w.vision) :=
    processImagesFrom_desc_save_ok docId w.vision w.save hsave ex.images 0
  have hproc : processor_process_document w docId = Except.ok
      ⟨⟨ex.texts.length, ex.tables.length, ex.images.length⟩, ex.texts, ex.tables,
       ex.images, ex.texts.map f, ex.tables.map f,
       (process_and_save_images docId w.vision w.save ex.images).image_descriptions,
       (process_and_save_images docId w.vision w.save ex.images).image_metadata,
       (process_and_save_images docId w.vision w.save ex.images).delays⟩ := by
    simp [processor_process_document, hex, hf]
  obtain ⟨idx, hbuild⟩ := build_ok_of_le w.keys w.fresh docId ex.texts ex.tables ex.images
    (ex.texts.map f) (ex.tables.map f)
    (process_and_save_images docId w.vision w.save ex.images).image_descriptions
    (process_and_save_images docId w.vision w.save ex.images).image_metadata
    (by simp) (by simp) (by rw [hdescs]; simp)
  have hing : ingestResult w docId = Except.ok
      (⟨⟨ex.texts.length, ex.tables.length, ex.images.length⟩, ex.texts, ex.tables,
        ex.images, ex.texts.map f, ex.tables.map f,
        (process_and_save_images docId w.vision w.save ex.images).image_descriptions,
        (process_and_save_images docId w.vision w.save ex.images).image_metadata,
        (process_and_save_images docId w.vision w.save ex.images).delays⟩, idx) := by
    simp [ingestResult, hproc, hvs, hbuild]
  refine ⟨_, idx, hing, hdescs, ?_, ?_, ?_⟩
  · intro i img e himg hv
    have h1 : (process_and_save_images docId w.vision w.save ex.images).image_descriptions.get? i
        = (ex.images.get? i).map (describe_image w.vision) := by
      rw [hdescs, List.get?_map]
    rw [h1, himg]
    simp [describe_image, hv]
  · obtain ⟨hv_len, hdoc_len, hdesc_le⟩ := build_ok_lengths w.keys w.fresh docId ex.texts
      ex.tables ex.images (ex.texts.map f) (ex.tables.map f)
      (process_and_save_images docId w.vision w.save ex.images).image_descriptions
      (process_and_save_images docId w.vision w.save ex.images).image_metadata
      idx (by simp) (by simp) hbuild
    have hdl : (process_and_save_images docId w.vision w.save ex.images).image_descriptions.length
        = ex.images.length := by
      rw [hdescs]
      simp
    omega
  · intro s d elapsed hsched hd
    obtain ⟨d', hd', hst', _⟩ :=
      run_background_completed w s docId elapsed _ idx hing hsched d hd
    exact ⟨d', hd', hst'⟩

/-- A world for the C7 witness: one text, one image whose vision call fails. -/
def w7 : IngestWorld :=
  ⟨Except.ok ⟨["t1"], [], ["imgA"]⟩,
   fun img => if img = "imgA" then Except.error "rate limited" else Except.ok "a photo",
   fun _ _ => Except.ok "u1", Except.ok (fun t => t),
   fun n => "k" ++ toString n, fun n => "u" ++ toString n, true⟩

/-- C7 witness: the theorem at the 1-text/1-image world whose single vision
call fails. -/
theorem C7_vision_failure_non_fatal_witness :
    ∃ pr idx, ingestResult w7 "d7" = Except.ok (pr, idx) ∧
      pr.image_descriptions = (["imgA"] : List String).map (describe_image w7.vision) ∧
      (∀ i img e, (["imgA"] : List String).get? i = some img →
        w7.vision img = Except.error e →
        pr.image_descriptions.get? i = some ("Error processing image: " ++ e)) ∧
      idx.vectors.length
        = (["t1"] : List String).length + ([] : List String).length
          + (["imgA"] : List String).length ∧
      (∀ s d elapsed, "d7" ∈ s.scheduled → getAssoc "d7" s.document_store = some d →
        ∃ d', getAssoc "d7" (run_background w7 s "d7" elapsed).document_store = some d' ∧
          d'.status = ProcessingStatus.completed) :=
  C7_vision_failure_non_fatal w7 "d7" ⟨["t1"], [], ["imgA"]⟩ rfl
    (fun _ _ => ⟨"u1", rfl⟩) ⟨fun t => t, rfl⟩ rfl

/-- C9: for every input list of images, when every image is processed (the
decode/write step succeeds), the sequence of sleeps emitted by
`process_and_save_images` is exactly the policy: the long 60-second cooldown
after image `i` exactly when `(i+1)` is a multiple of MAX_IMAGES_PER_REQUEST,
and the short RATE_LIMIT_DELAY sleep after every other image. -/
theorem C9_rate_limit_delays (docId : String) (vision : String → Except String String)
    (save : Nat → String → Except String String) (images : List String)
    (hsave : ∀ i img, ∃ u, save i img = Except.ok u) :
    (process_and_save_images docId vision save images).delays
      = (List.range images.length).map
          (fun i => if (i + 1) % MAX_IMAGES_PER_REQUEST = 0 then 60
            else RATE_LIMIT_DELAY) := by
  have h := processImagesFrom_delays_save_ok docId vision save hsave images 0
  unfold process_and_save_images
  rw [h]
  apply List.map_congr_left
  intro k _
  simp [delayFor]

/-- C9 witness: 16 images, all saved — the 15th sleep is the long cooldown,
all others are the short delay. -/
theorem C9_rate_limit_delays_witness :
    (process_and_save_images "d9" (fun _ => Except.ok "t") (fun _ _ => Except.ok "u")
        ["i1", "i2", "i3", "i4", "i5", "i6", "i7", "i8", "i9", "i10", "i11", "i12",
         "i13", "i14", "i15", "i16"]).delays
      = (List.range (["i1", "i2", "i3", "i4", "i5", "i6", "i7", "i8", "i9", "i10",
          "i11", "i12", "i13", "i14", "i15", "i16"] : List String).length).map
          (fun i => if (i + 1) % MAX_IMAGES_PER_REQUEST = 0 then 60
            else RATE_LIMIT_DELAY) :=
  C9_rate_limit_delays "d9" (fun _ => Except.ok "t") (fun _ _ => Except.ok "u")
    ["i1", "i2", "i3", "i4", "i5", "i6", "i7", "i8", "i9", "i10", "i11", "i12",
     "i13", "i14", "i15", "i16"] (fun _ _ => ⟨"u", rfl⟩)

/-- C10: the claim is the intent (the error branch itself appends a matching
placeholder to both lists, and `build_vector_database` pairs
`image_descriptions[i]` with `img_ids[i]`), but the code violates it: the
description is appended before the fallible decode/write, so an image whose
description succeeds and whose save fails gets TWO entries in
`image_descriptions` and one in `image_metadata`, leaving the lists
misaligned (2 descriptions for 1 input image). -/
theorem C10_misaligned_on_save_failure :
    (process_and_save_images "doc1" (fun _ => Except.ok "a diagram")
        (fun _ _ => Except.error "disk full") ["img0"]).image_descriptions
      = ["a diagram", "Error processing image: disk full"] ∧
    (process_and_save_images "doc1" (fun _ => Except.ok "a diagram")
        (fun _ _ => Except.error "disk full") ["img0"]).image_metadata
      = [⟨none, none, "Error processing image: disk full", 0, none⟩] ∧
    (process_and_save_images "doc1" (fun _ => Except.ok "a diagram")
        (fun _ _ => Except.error "disk full") ["img0"]).image_descriptions.length
      ≠ (["img0"] : List String).length := by
  exact ⟨rfl, rfl, by decide⟩

end DocuChat
